import Mathlib

/-!
Shallow embedding of the deferred-cleanup engine in `state/cleanup.go`
(package `state` of the juju repository).

Modelling conventions:
* A Go `error` value is `Option Err` (`none` = `nil`).
* External collaborator operations (entity lookups, lifecycle operations,
  storage backend calls, transaction runs) are supplied by an environment
  record `Env`: each field gives the result the collaborator returns for a
  call with the given arguments.  The cleanup engine consumes these
  operations abstractly, exactly as the source does.
* State-mutating collaborator calls are recorded, in execution order, in a
  trace of `Effect` values; each model function returns its trace together
  with its result.  Logging (`logger.Warningf` etc.) mutates no state and
  is not recorded.
* `time.Time` is modelled as `Nat`; the zero sentinel `asap` is `0`.
* Unbounded recursion (machine containers, subordinate units) is given a
  `Nat` fuel parameter; theorems about recursive handlers quantify over
  sufficient fuel.
-/

namespace JujuCleanup

/-- Errors.  `notFound`, `unitHasSubordinates`, `unitHasStorageAttachments`
and `containsFilesystem` are the distinguished error causes the code tests
for; `annotated` models `errors.Annotate` (which preserves the cause);
`other` is any other error. -/
inductive Err where
  | notFound
  | unitHasSubordinates
  | unitHasStorageAttachments
  | containsFilesystem
  | annotated (msg : String) (e : Err)
  | other (msg : String)
deriving DecidableEq, Repr

/-- `errors.IsNotFound`: true when the cause of the error is not-found. -/
def Err.isNotFound : Err → Bool
  | .notFound => true
  | .annotated _ e => e.isNotFound
  | _ => false

/-- `IsContainsFilesystem`. -/
def Err.isContainsFilesystem : Err → Bool
  | .containsFilesystem => true
  | .annotated _ e => e.isContainsFilesystem
  | _ => false

/-- A `bson.Raw` cleanup argument: either a value that unmarshals as a
bool, or a value that does not. -/
inductive Raw where
  | bool (b : Bool)
  | bad
deriving DecidableEq, Repr

/-- `raw.Unmarshal(&someBool)`. -/
def unmarshalBool : Raw → Except Err Bool
  | .bool b => .ok b
  | .bad => .error (.other "unmarshal error")

/-- Recorded state-mutating collaborator calls, in execution order. -/
inductive Effect where
  | dispatch (docId : String)
  | scheduleForce (kind name : String) (at_ : Nat)
  | prepareLeaveScope (relUnit : String)
  | leaveScope (relUnit : String)
  | destroyUnitWithForce (unit : String) (force : Bool)
  | removeUnitWithForce (unit : String) (force : Bool)
  | destroyUnitStorageAttachments (unit : String)
  | detachStorage (storage unit : String) (force : Bool)
  | removeStorageAttachment (storage unit : String) (force : Bool)
  | destroyStorageInstance (storage : String) (destroyAttached force : Bool)
  | releaseStorageInstance (storage : String) (destroyAttached force : Bool)
  | ensureDeadUnit (unit : String)
  | applyUnitDestroyOp (unit : String) (destroyStorage force : Bool)
  | removeUpgradeSeriesLock (machine : String)
  | removeMachine (machine : String)
  | setHasVote (machine : String) (v : Bool)
  | removeControllerMachine (machine : String)
  | ensureDeadMachine (machine : String)
  | removePortsTxn (machine : String)
  | destroyFilesystem (fs : String)
  | detachFilesystem (host fs : String)
  | removeFilesystemAttachment (host fs : String)
  | removeVolumeAttachmentPlan (host vol : String)
  | setFilesystemStatusDetached (fs : String)
  | removeFilesystem (fs : String)
  | detachVolume (host vol : String)
deriving DecidableEq, Repr

/-- The fields of a unit document the cleanup code reads. -/
structure UnitInfo where
  subordinates : List String
deriving DecidableEq, Repr

/-- The fields of a machine document the cleanup code reads. -/
structure MachineInfo where
  principals : List String
  isManager : Bool
  hasVote : Bool
deriving DecidableEq, Repr

/-- A filesystem attachment (`FilesystemAttachment`): host tag and
filesystem tag. -/
structure FsAttach where
  host : String
  fs : String
deriving DecidableEq, Repr

/-- A volume attachment (`VolumeAttachment`): host tag and volume tag. -/
structure VolAttach where
  host : String
  vol : String
deriving DecidableEq, Repr

/-- `cleanupDoc`: `_id`, `kind`, `when` (absent for legacy records),
`prefix` (field `pfx` here) and `args`. -/
structure CleanupDoc where
  docId : String
  kind : String
  whenAt : Option Nat
  pfx : String
  args : List Raw
deriving DecidableEq, Repr

/-- Environment of collaborator operations: for every operation the
cleanup code invokes, the result the collaborator returns for the given
arguments.  Handler outcomes in the dispatch loop are abstracted by the
oracle `handlerResult` (the individual handlers are modelled separately
below). -/
structure Env where
  /-- `st.stateClock.Now()`. -/
  now : Nat
  /-- result of `NewStorageBackend(st)`. -/
  sbErr : Option Err
  -- dispatch loop
  handlerResult : CleanupDoc → Option Err
  removeDoc : String → Option Err
  iterCloseCleanups : Option Err
  -- units
  lookupUnit : String → Except Err UnitInfo
  relationsJoined : String → Except Err (List String)
  relationsInScope : String → Except Err (List String)
  relationUnit : String → String → Except Err String
  prepareLeaveScope : String → Option Err
  leaveScope : String → Option Err
  /-- result of the `st.db().Run` enqueueing a force cleanup op. -/
  runCleanupOpTxn : String → String → Option Err
  unitStorageAttachments : String → Except Err (List String)
  detachStorage : String → String → Bool → Option Err
  removeStorageAttachment : String → String → Bool → Option Err
  destroyStorageInstance : String → Bool → Bool → Option Err
  releaseStorageInstance : String → Bool → Bool → Option Err
  destroyUnitStorageAttachments : String → Option Err
  destroyUnitWithForce : String → Bool → List Err × Option Err
  removeUnitWithForce : String → Bool → List Err × Option Err
  ensureDeadUnit : String → Option Err
  refreshUnit : String → Except Err UnitInfo
  -- units of a dying application
  applicationUnits : String → List String
  applyUnitDestroyOp : String → Bool → Bool → Option Err
  unitsIterClose : Option Err
  -- model storage
  allStorageInstances : Except Err (List String)
  -- machines
  lookupMachine : String → Except Err MachineInfo
  refreshMachine : String → Except Err MachineInfo
  machineIsManual : String → Except Err Bool
  containers : String → Except Err (List String)
  removeUpgradeSeriesLock : String → Option Err
  removeMachine : String → Option Err
  runHasVoteTxn : String → Option Err
  removeControllerMachine : String → Option Err
  ensureDeadMachine : String → Option Err
  /-- `machine.removePortsOps()`: whether a non-empty op list results. -/
  removePortsOps : String → Except Err Bool
  runRemovePortsTxn : String → Option Err
  machineFsAttachments : String → Except Err (List FsAttach)
  machineVolAttachments : String → Except Err (List VolAttach)
  hostFilesystems : String → Except Err (List String)
  destroyFilesystem : String → Option Err
  isDetachableFs : String → Except Err Bool
  detachFilesystem : String → String → Option Err
  /-- result of `sb.Filesystem(tag)` (only success/failure is consumed). -/
  filesystemGet : String → Option Err
  /-- result of `f.Volume()` for the filesystem with the given tag. -/
  filesystemVolume : String → Except Err String
  setFilesystemStatus : String → Option Err
  removeFilesystemAttachment : String → String → Option Err
  removeVolumeAttachmentPlan : String → String → Option Err
  removeFilesystem : String → Option Err
  isDetachableVol : String → Except Err Bool
  detachVolume : String → String → Option Err

/-- The cleanup kind constants. -/
def kindRelationSettings : String := "settings"
def kindUnitsForDyingApplication : String := "units"
def kindCharm : String := "charm"
def kindDyingUnit : String := "dyingUnit"
def kindForceDestroyedUnit : String := "forceDestroyUnit"
def kindForceRemoveUnit : String := "forceRemoveUnit"
def kindRemovedUnit : String := "removedUnit"
def kindApplicationsForDyingModel : String := "applications"
def kindDyingMachine : String := "dyingMachine"
def kindForceDestroyedMachine : String := "machine"
def kindAttachmentsForDyingStorage : String := "storageAttachments"
def kindAttachmentsForDyingVolume : String := "volumeAttachments"
def kindAttachmentsForDyingFilesystem : String := "filesystemAttachments"
def kindModelsForDyingController : String := "models"
def kindMachinesForDyingModel : String := "modelMachines"
def kindDyingUnitResources : String := "dyingUnitResources"
def kindResourceBlob : String := "resourceBlob"
def kindStorageForDyingModel : String := "modelStorage"

/-- `forceTimeout`: hard-coded to 0. -/
def forceTimeout : Nat := 0

/-- The closed set of kinds the `switch` in `Cleanup` enumerates. -/
def knownKinds : List String :=
  [kindRelationSettings, kindCharm, kindUnitsForDyingApplication,
   kindDyingUnit, kindForceDestroyedUnit, kindForceRemoveUnit,
   kindDyingUnitResources, kindRemovedUnit, kindApplicationsForDyingModel,
   kindDyingMachine, kindForceDestroyedMachine,
   kindAttachmentsForDyingStorage, kindAttachmentsForDyingVolume,
   kindAttachmentsForDyingFilesystem, kindModelsForDyingController,
   kindMachinesForDyingModel, kindResourceBlob, kindStorageForDyingModel]

/-- The outcome of the `switch doc.Kind` in `Cleanup`: a known kind runs
its handler (abstracted by the `handlerResult` oracle); the `default`
branch produces the unknown-kind error. -/
def dispatchResult (env : Env) (d : CleanupDoc) : Option Err :=
  if d.kind ∈ knownKinds then env.handlerResult d
  else some (.other ("unknown cleanup kind " ++ d.kind))

/-- The `$or` query of `Cleanup`: a document is selected when its `when`
is at most the state clock's now, or the field is absent. -/
def dueNow (now : Nat) (d : CleanupDoc) : Bool :=
  match d.whenAt with
  | none => true
  | some w => decide (w ≤ now)

/-- The body of the `iter.Next` loop of `Cleanup`: dispatch each document;
on handler error log and continue (the document stays); on success remove
the document in its own transaction, aborting the whole run if the
removal transaction fails.  Returns (trace, removed doc ids, error). -/
def cleanupDrain (env : Env) : List CleanupDoc → List Effect × List String × Option Err
  | [] => ([], [], none)
  | d :: rest =>
    match dispatchResult env d with
    | some _ =>
      -- handler failed: logged, document left in place, drain continues
      let (t, r, e) := cleanupDrain env rest
      (.dispatch d.docId :: t, r, e)
    | none =>
      match env.removeDoc d.docId with
      | some e =>
        ([.dispatch d.docId], [],
         some (.annotated "cannot remove empty cleanup document" e))
      | none =>
        let (t, r, e) := cleanupDrain env rest
        (.dispatch d.docId :: t, d.docId :: r, e)

/-- `State.Cleanup`: drain the documents selected by the due query, then
close the iterator (`closeIter` annotates a close error with "reading
cleanup document"; an earlier error takes precedence). -/
def stateCleanup (env : Env) (now : Nat) (docs : List CleanupDoc) :
    List Effect × List String × Option Err :=
  let (t, r, e) := cleanupDrain env (docs.filter (dueNow now))
  match e with
  | some e => (t, r, some e)
  | none =>
    match env.iterCloseCleanups with
    | some ce => (t, r, some (.annotated "reading cleanup document" ce))
    | none => (t, r, none)

/-! ## Argument parsing preludes -/

/-- The 0-2 argument prelude shared by `cleanupDyingUnit` and
`cleanupUnitsForDyingApplication`: no args means the legacy defaults
`(destroyStorage, force) = (false, false)`; argument 0 unmarshals
`destroyStorage`, argument 1 `force`; more than 2 args is an error. -/
def parse02 : List Raw → Except Err (Bool × Bool)
  | [] => .ok (false, false)
  | [a] =>
    match unmarshalBool a with
    | .error e => .error (.annotated "unmarshalling cleanup args" e)
    | .ok ds => .ok (ds, false)
  | [a, b] =>
    match unmarshalBool a with
    | .error e => .error (.annotated "unmarshalling cleanup args" e)
    | .ok ds =>
      match unmarshalBool b with
      | .error e => .error (.annotated "unmarshalling cleanup arg 'force'" e)
      | .ok f => .ok (ds, f)
  | args => .error (.other s!"expected 0-2 arguments, got {args.length}")

/-- The 0-1 argument prelude shared by `cleanupDyingMachine` and other
single-`force`-argument handlers: no args means `force = false`. -/
def parse01 : List Raw → Except Err Bool
  | [] => .ok false
  | [a] =>
    match unmarshalBool a with
    | .error e => .error (.annotated "unmarshalling cleanup arg 'force'" e)
    | .ok f => .ok f
  | args => .error (.other s!"expected 0-1 arguments, got {args.length}")

/-! ## Force-escalation scheduling -/

/-- `State.scheduleForceCleanup`: build a cleanup op for `kind`/`name` due
at `now + forceTimeout` and run it in its own transaction; a transaction
failure is only logged, never surfaced. -/
def scheduleForceCleanupF (env : Env) (kind name : String) : List Effect :=
  let eff := Effect.scheduleForce kind name (env.now + forceTimeout)
  match env.runCleanupOpTxn kind name with
  | some _ => [eff]   -- "couldn't schedule ... cleanup" is logged only
  | none => [eff]

/-! ## Unit storage helpers -/

/-- Loop body of `cleanupUnitStorageInstances`: destroy the storage
instance of every storage attachment; not-found is skipped, any other
error aborts (regardless of `force`). -/
def storageInstLoop (env : Env) (force : Bool) :
    List String → List Effect × Option Err
  | [] => ([], none)
  | s :: rest =>
    let eff := Effect.destroyStorageInstance s true force
    match env.destroyStorageInstance s true force with
    | some e =>
      if e.isNotFound then
        let (t, r) := storageInstLoop env force rest
        (eff :: t, r)
      else ([eff], some e)
    | none =>
      let (t, r) := storageInstLoop env force rest
      (eff :: t, r)

/-- `State.cleanupUnitStorageInstances`. -/
def cleanupUnitStorageInstancesF (env : Env) (unitName : String) (force : Bool) :
    List Effect × Option Err :=
  match env.sbErr with
  | some e => ([], some e)
  | none =>
    match env.unitStorageAttachments unitName with
    | .error e => ([], some e)
    | .ok atts => storageInstLoop env force atts

/-- The `if !remove { continue }` tail of one body of the
`cleanupUnitStorageAttachments` loop: when `remove` is set, remove the
attachment record (not-found skips; other errors abort unless `force`,
which logs). -/
def storageAttachTail (env : Env) (unitName : String) (remove force : Bool)
    (s : String) : List Effect × Option Err :=
  if !remove then ([], none)
  else
    let eff2 := Effect.removeStorageAttachment s unitName force
    match env.removeStorageAttachment s unitName force with
    | some e =>
      if e.isNotFound then ([eff2], none)
      else if !force then ([eff2], some e)
      else ([eff2], none)
    | none => ([eff2], none)

/-- One body of the `cleanupUnitStorageAttachments` loop: detach the
storage attachment (a not-found result skips the rest of the body; other
errors abort unless `force`, which logs and falls through), then the
removal tail. -/
def storageAttachBody (env : Env) (unitName : String) (remove force : Bool)
    (s : String) : List Effect × Option Err :=
  let eff := Effect.detachStorage s unitName force
  match env.detachStorage s unitName force with
  | some e =>
    if e.isNotFound then ([eff], none)
    else if !force then ([eff], some e)
    else
      let (t, r) := storageAttachTail env unitName remove force s
      (eff :: t, r)
  | none =>
    let (t, r) := storageAttachTail env unitName remove force s
    (eff :: t, r)

/-- The loop of `cleanupUnitStorageAttachments`. -/
def storageAttachLoop (env : Env) (unitName : String) (remove force : Bool) :
    List String → List Effect × Option Err
  | [] => ([], none)
  | s :: rest =>
    let (t, r) := storageAttachBody env unitName remove force s
    match r with
    | some e => (t, some e)
    | none =>
      let (t2, r2) := storageAttachLoop env unitName remove force rest
      (t ++ t2, r2)

/-- `State.cleanupUnitStorageAttachments`. -/
def cleanupUnitStorageAttachmentsF (env : Env) (unitName : String)
    (remove force : Bool) : List Effect × Option Err :=
  match env.sbErr with
  | some e => ([], some e)
  | none =>
    match env.unitStorageAttachments unitName with
    | .error e => ([], some e)
    | .ok atts => storageAttachLoop env unitName remove force atts

/-! ## cleanupDyingUnit -/

/-- The relations loop of `cleanupDyingUnit`: for each joined relation,
get the relation unit (not-found skips; other errors abort unless
`force`, which logs and skips) and prepare to leave its scope (same
error policy). -/
def dyingUnitRelLoop (env : Env) (unitName : String) (force : Bool) :
    List String → List Effect × Option Err
  | [] => ([], none)
  | r :: rest =>
    match env.relationUnit r unitName with
    | .error e =>
      if e.isNotFound then dyingUnitRelLoop env unitName force rest
      else if !force then ([], some e)
      else dyingUnitRelLoop env unitName force rest
    | .ok ru =>
      let eff := Effect.prepareLeaveScope ru
      match env.prepareLeaveScope ru with
      | some e =>
        if !force then ([eff], some e)
        else
          let (t, res) := dyingUnitRelLoop env unitName force rest
          (eff :: t, res)
      | none =>
        let (t, res) := dyingUnitRelLoop env unitName force rest
        (eff :: t, res)

/-- The `RelationsJoined` phase of `cleanupDyingUnit`: enumeration
failure aborts unless `force` (which logs and leaves the relation list
empty). -/
def dyingUnitRelationsPhase (env : Env) (unitName : String) (force : Bool) :
    List Effect × Option Err :=
  match env.relationsJoined unitName with
  | .error e => if !force then ([], some e) else ([], none)
  | .ok rels => dyingUnitRelLoop env unitName force rels

/-- `State.cleanupDyingUnit`: parse the 0-2 args, look up the unit
(not-found is success), run the relations phase, schedule the
force-destroy backstop when `force`, then either destroy the storage
instances (`destroyStorage`) or detach the storage attachments without
removing them. -/
def cleanupDyingUnitF (env : Env) (name : String) (args : List Raw) :
    List Effect × Option Err :=
  match parse02 args with
  | .error e => ([], some e)
  | .ok (destroyStorage, force) =>
    match env.lookupUnit name with
    | .error e =>
      if e.isNotFound then ([], none) else ([], some e)
    | .ok _ =>
      let (rtr, rres) := dyingUnitRelationsPhase env name force
      match rres with
      | some e => (rtr, some e)
      | none =>
        let str := if force then scheduleForceCleanupF env kindForceDestroyedUnit name else []
        let (btr, bres) :=
          if destroyStorage then cleanupUnitStorageInstancesF env name force
          else cleanupUnitStorageAttachmentsF env name false force
        (rtr ++ str ++ btr, bres)

/-! ## cleanupForceDestroyedUnit -/

/-- The subordinate-destruction loop of `cleanupForceDestroyedUnit`: look
up each subordinate (not-found skips; any other lookup error is only
logged) and force-destroy it; destruction errors are collected in logs,
never raised. -/
def forceDestroySubsLoop (env : Env) : List String → List Effect
  | [] => []
  | subName :: rest =>
    match env.lookupUnit subName with
    | .error e =>
      if e.isNotFound then forceDestroySubsLoop env rest
      else
        -- lookup error is logged; the code still calls DestroyWithForce
        Effect.destroyUnitWithForce subName true :: forceDestroySubsLoop env rest
    | .ok _ =>
      Effect.destroyUnitWithForce subName true :: forceDestroySubsLoop env rest

/-- The `LeaveScope` loop of `cleanupForceDestroyedUnit`: errors getting
the relation list, the relation unit, or leaving scope are all logged,
never raised. -/
def forceLeaveScopeLoop (env : Env) (unitId : String) : List String → List Effect
  | [] => []
  | r :: rest =>
    match env.relationUnit r unitId with
    | .error _ => forceLeaveScopeLoop env unitId rest
    | .ok ru => Effect.leaveScope ru :: forceLeaveScopeLoop env unitId rest

/-- The relations phase of `cleanupForceDestroyedUnit`. -/
def forceLeaveScopePhase (env : Env) (unitId : String) : List Effect :=
  match env.relationsInScope unitId with
  | .error _ => []
  | .ok rels => forceLeaveScopeLoop env unitId rels

/-- `State.forceRemoveUnitStorageAttachments`: destroy all unit storage
attachments, then remove each remaining attachment record (removal errors
are logged only). -/
def forceRemoveUnitStorageAttachmentsF (env : Env) (unitId : String) :
    List Effect × Option Err :=
  match env.sbErr with
  | some e => ([], some (.annotated "couldn't get storage backend" e))
  | none =>
    let eff := Effect.destroyUnitStorageAttachments unitId
    match env.destroyUnitStorageAttachments unitId with
    | some e =>
      ([eff], some (.annotated s!"destroying storage attachments for {unitId}" e))
    | none =>
      match env.unitStorageAttachments unitId with
      | .error e =>
        ([eff], some (.annotated s!"getting storage attachments for {unitId}" e))
      | .ok atts =>
        (eff :: atts.map (fun s => Effect.removeStorageAttachment s unitId true), none)

/-- `State.cleanupForceDestroyedUnit`: look up the unit (not-found is
success); force-destroy all subordinates and leave all relation scopes
and detach all storage, logging failures; then `EnsureDead` — its
`ErrUnitHasSubordinates` / `ErrUnitHasStorageAttachments` errors are
returned (so the task stays pending and is retried), any other error is
logged; finally schedule the force-remove backstop. -/
def cleanupForceDestroyedUnitF (env : Env) (unitId : String) :
    List Effect × Option Err :=
  match env.lookupUnit unitId with
  | .error e =>
    if e.isNotFound then ([], none) else ([], some e)
  | .ok u =>
    let t1 := forceDestroySubsLoop env u.subordinates
    let t2 := forceLeaveScopePhase env unitId
    let (t3, _) := forceRemoveUnitStorageAttachmentsF env unitId
    -- a storage-detach error is logged only
    let pre := t1 ++ t2 ++ t3 ++ [Effect.ensureDeadUnit unitId]
    match env.ensureDeadUnit unitId with
    | some e =>
      if e = .unitHasSubordinates ∨ e = .unitHasStorageAttachments then
        (pre, some e)
      else
        -- "couldn't set unit dead" is logged; fall through to the backstop
        (pre ++ scheduleForceCleanupF env kindForceRemoveUnit unitId, none)
    | none =>
      (pre ++ scheduleForceCleanupF env kindForceRemoveUnit unitId, none)

/-- `State.cleanupForceRemoveUnit`: look up the unit (not-found is
success) and remove it with force; the collected op errors are logged,
the final error is returned. -/
def cleanupForceRemoveUnitF (env : Env) (unitId : String) :
    List Effect × Option Err :=
  match env.lookupUnit unitId with
  | .error e =>
    if e.isNotFound then ([], none) else ([], some e)
  | .ok _ =>
    let (_, res) := env.removeUnitWithForce unitId true
    ([Effect.removeUnitWithForce unitId true], res)

/-! ## cleanupUnitsForDyingApplication -/

/-- The unit-destruction loop of `cleanupUnitsForDyingApplication`: apply
a destroy operation with the given flags to each alive unit of the
application; an operation error aborts. -/
def dyingAppUnitsLoop (env : Env) (destroyStorage force : Bool) :
    List String → List Effect × Option Err
  | [] => ([], none)
  | u :: rest =>
    let eff := Effect.applyUnitDestroyOp u destroyStorage force
    match env.applyUnitDestroyOp u destroyStorage force with
    | some e => ([eff], some e)
    | none =>
      let (t, r) := dyingAppUnitsLoop env destroyStorage force rest
      (eff :: t, r)

/-- `State.cleanupUnitsForDyingApplication`: parse the 0-2 args, then
destroy every alive unit of the application; the deferred iterator close
error (annotated "reading unit document") surfaces only when the loop
itself succeeded. -/
def cleanupUnitsForDyingApplicationF (env : Env) (appName : String)
    (args : List Raw) : List Effect × Option Err :=
  match parse02 args with
  | .error e => ([], some e)
  | .ok (destroyStorage, force) =>
    let (t, r) := dyingAppUnitsLoop env destroyStorage force (env.applicationUnits appName)
    match r with
    | some e => (t, some e)
    | none =>
      match env.unitsIterClose with
      | some ce => (t, some (.annotated "reading unit document" ce))
      | none => (t, none)

/-! ## cleanupStorageForDyingModel -/

/-- Which storage-instance operation `cleanupStorageForDyingModel` uses:
`DestroyStorageInstance` (the initial value, kept by the legacy zero-args
path and by `destroyStorage=true`) or `ReleaseStorageInstance` (selected
when argument 0 unmarshals to `false`). -/
inductive StorageOp where
  | destroyInstance
  | releaseInstance
deriving DecidableEq, Repr

/-- The storage-instance loop of `cleanupStorageForDyingModel`: apply the
selected operation (`destroyAttached = true`) to every storage instance;
not-found skips, other errors abort. -/
def dyingModelStorageLoop (env : Env) (op : StorageOp) (force : Bool) :
    List String → List Effect × Option Err
  | [] => ([], none)
  | s :: rest =>
    let eff := match op with
      | .destroyInstance => Effect.destroyStorageInstance s true force
      | .releaseInstance => Effect.releaseStorageInstance s true force
    let res := match op with
      | .destroyInstance => env.destroyStorageInstance s true force
      | .releaseInstance => env.releaseStorageInstance s true force
    match res with
    | some e =>
      if e.isNotFound then
        let (t, r) := dyingModelStorageLoop env op force rest
        (eff :: t, r)
      else ([eff], some e)
    | none =>
      let (t, r) := dyingModelStorageLoop env op force rest
      (eff :: t, r)

/-- `State.cleanupStorageForDyingModel`: the destroy operation starts as
`DestroyStorageInstance`; with no args (legacy records) it stays so; with
at least one arg, argument 0 selects `ReleaseStorageInstance` when it
unmarshals to `false`; argument 1 is `force`; more than 2 args is an
error.  Then the selected operation is applied to all storage
instances. -/
def cleanupStorageForDyingModelF (env : Env) (args : List Raw) :
    List Effect × Option Err :=
  match env.sbErr with
  | some e => ([], some e)
  | none =>
    match parseStorageArgs args with
    | .error e => ([], some e)
    | .ok (op, force) =>
      match env.allStorageInstances with
      | .error e => ([], some e)
      | .ok insts => dyingModelStorageLoop env op force insts
where
  /-- the argument prelude of `cleanupStorageForDyingModel`. -/
  parseStorageArgs : List Raw → Except Err (StorageOp × Bool)
    | [] => .ok (.destroyInstance, false)
    | [a] =>
      match unmarshalBool a with
      | .error e => .error (.annotated "unmarshalling cleanup arg 'destroyStorage'" e)
      | .ok b => .ok (if b then .destroyInstance else .releaseInstance, false)
    | [a, b] =>
      match unmarshalBool a with
      | .error e => .error (.annotated "unmarshalling cleanup arg 'destroyStorage'" e)
      | .ok db =>
        match unmarshalBool b with
        | .error e => .error (.annotated "unmarshalling cleanup arg 'force'" e)
        | .ok f => .ok (if db then .destroyInstance else .releaseInstance, f)
    | args => .error (.other s!"expected 0-2 arguments, got {args.length}")

/-! ## cleanupDyingEntityStorage and the machine storage teardown -/

/-- First phase of `cleanupDyingEntityStorage`: destroy every
machine/unit-scoped filesystem of the host; not-found is skipped, other
errors abort unless `force` (which logs). -/
def destroyFsLoop (env : Env) (force : Bool) : List String → List Effect × Option Err
  | [] => ([], none)
  | f :: rest =>
    let eff := Effect.destroyFilesystem f
    match env.destroyFilesystem f with
    | some e =>
      if e.isNotFound then
        let (t, r) := destroyFsLoop env force rest
        (eff :: t, r)
      else if !force then ([eff], some e)
      else
        let (t, r) := destroyFsLoop env force rest
        (eff :: t, r)
    | none =>
      let (t, r) := destroyFsLoop env force rest
      (eff :: t, r)

/-- The `if remove { ... }` block of the filesystem-attachment loop:
remove the filesystem attachment, then (for a volume-backed filesystem)
the volume attachment plan, then run the status update (`SetStatus
Detached`, a no-op for the non-detachable case); each step skips
not-found and aborts on other errors unless `force`. -/
def fsAttachRemoveBlock (env : Env) (force : Bool) (fsa : FsAttach)
    (volOpt : Option String) (statusUpdate : Bool) : List Effect × Option Err :=
  let eff := Effect.removeFilesystemAttachment fsa.host fsa.fs
  match env.removeFilesystemAttachment fsa.host fsa.fs with
  | some e =>
    if e.isNotFound then fsAttachRemoveVol env force fsa volOpt statusUpdate [eff]
    else if !force then ([eff], some e)
    else fsAttachRemoveVol env force fsa volOpt statusUpdate [eff]
  | none => fsAttachRemoveVol env force fsa volOpt statusUpdate [eff]
where
  fsAttachRemoveVol (env : Env) (force : Bool) (fsa : FsAttach)
      (volOpt : Option String) (statusUpdate : Bool) (acc : List Effect) :
      List Effect × Option Err :=
    match volOpt with
    | none => fsAttachStatus env force fsa statusUpdate acc
    | some v =>
      let eff := Effect.removeVolumeAttachmentPlan fsa.host v
      match env.removeVolumeAttachmentPlan fsa.host v with
      | some e =>
        if e.isNotFound then fsAttachStatus env force fsa statusUpdate (acc ++ [eff])
        else if !force then (acc ++ [eff], some e)
        else fsAttachStatus env force fsa statusUpdate (acc ++ [eff])
      | none => fsAttachStatus env force fsa statusUpdate (acc ++ [eff])
  fsAttachStatus (env : Env) (force : Bool) (fsa : FsAttach)
      (statusUpdate : Bool) (acc : List Effect) : List Effect × Option Err :=
    if !statusUpdate then (acc, none)
    else
      let eff := Effect.setFilesystemStatusDetached fsa.fs
      match env.setFilesystemStatus fsa.fs with
      | some e =>
        if e.isNotFound then (acc ++ [eff], none)
        else if !force then (acc ++ [eff], some e)
        else (acc ++ [eff], none)
      | none => (acc ++ [eff], none)

/-- The non-manual tail of the filesystem-attachment loop body: decide
`remove`, `volumeTag` and the status update exactly as the source does
(`!detachable` forces removal with a no-op status update; otherwise a
successful `sb.Filesystem` lookup with a volume-backed filesystem forces
removal with a `SetStatus` update), then run the removal block. -/
def fsAttachNonManual (env : Env) (force : Bool) (fsa : FsAttach)
    (detachable : Bool) : List Effect × Option Err :=
  if !detachable then fsAttachRemoveBlock env force fsa none false
  else
    match env.filesystemGet fsa.fs with
    | some e =>
      if e.isNotFound then ([], none)
      else if !force then ([], some e)
      else ([], none)
    | none =>
      match env.filesystemVolume fsa.fs with
      | .ok v => fsAttachRemoveBlock env force fsa (some v) true
      | .error _ => ([], none)   -- not volume-backed: remove stays false

/-- One body of the filesystem-attachment loop of
`cleanupDyingEntityStorage`: determine detachability (errors default it to
false; non-not-found errors abort unless `force`), detach a detachable
filesystem, and for non-manual hosts run the attachment-removal logic. -/
def fsAttachStep (env : Env) (manual force : Bool) (fsa : FsAttach) :
    List Effect × Option Err :=
  match env.isDetachableFs fsa.fs with
  | .error e =>
    if e.isNotFound then fsAttachDetach env manual force fsa false
    else if !force then ([], some e)
    else fsAttachDetach env manual force fsa false
  | .ok b => fsAttachDetach env manual force fsa b
where
  fsAttachDetach (env : Env) (manual force : Bool) (fsa : FsAttach)
      (detachable : Bool) : List Effect × Option Err :=
    if detachable then
      let eff := Effect.detachFilesystem fsa.host fsa.fs
      match env.detachFilesystem fsa.host fsa.fs with
      | some e =>
        if e.isNotFound then fsAttachManualSwitch env manual force fsa detachable [eff]
        else if !force then ([eff], some e)
        else fsAttachManualSwitch env manual force fsa detachable [eff]
      | none => fsAttachManualSwitch env manual force fsa detachable [eff]
    else fsAttachManualSwitch env manual force fsa detachable []
  fsAttachManualSwitch (env : Env) (manual force : Bool) (fsa : FsAttach)
      (detachable : Bool) (acc : List Effect) : List Effect × Option Err :=
    if manual then (acc, none)
    else
      let (t, r) := fsAttachNonManual env force fsa detachable
      (acc ++ t, r)

/-- The filesystem-attachment loop of `cleanupDyingEntityStorage`. -/
def fsAttachListLoop (env : Env) (manual force : Bool) :
    List FsAttach → List Effect × Option Err
  | [] => ([], none)
  | fsa :: rest =>
    let (t, r) := fsAttachStep env manual force fsa
    match r with
    | some e => (t, some e)
    | none =>
      let (t2, r2) := fsAttachListLoop env manual force rest
      (t ++ t2, r2)

/-- Third phase of `cleanupDyingEntityStorage` (non-manual hosts only):
remove the now-detached host filesystems. -/
def removeFsLoop (env : Env) (force : Bool) : List String → List Effect × Option Err
  | [] => ([], none)
  | f :: rest =>
    let eff := Effect.removeFilesystem f
    match env.removeFilesystem f with
    | some e =>
      if e.isNotFound then
        let (t, r) := removeFsLoop env force rest
        (eff :: t, r)
      else if !force then ([eff], some e)
      else
        let (t, r) := removeFsLoop env force rest
        (eff :: t, r)
    | none =>
      let (t, r) := removeFsLoop env force rest
      (eff :: t, r)

/-- One body of the volume-attachment loop of
`cleanupDyingEntityStorage`: skip non-detachable volumes (a not-found
detachability error also skips, a different error aborts unless `force`,
which logs and falls through to the detach), then detach, skipping a
volume that still contains a filesystem. -/
def volAttachStep (env : Env) (force : Bool) (va : VolAttach) :
    List Effect × Option Err :=
  match env.isDetachableVol va.vol with
  | .error e =>
    if e.isNotFound then ([], none)
    else if !force then ([], some e)
    else volAttachDetach env force va
  | .ok false => ([], none)
  | .ok true => volAttachDetach env force va
where
  volAttachDetach (env : Env) (force : Bool) (va : VolAttach) :
      List Effect × Option Err :=
    let eff := Effect.detachVolume va.host va.vol
    match env.detachVolume va.host va.vol with
    | some e =>
      if e.isNotFound then ([eff], none)
      else if e.isContainsFilesystem then ([eff], none)
      else if !force then ([eff], some e)
      else ([eff], none)
    | none => ([eff], none)

/-- The volume-attachment loop of `cleanupDyingEntityStorage`. -/
def volAttachListLoop (env : Env) (force : Bool) :
    List VolAttach → List Effect × Option Err
  | [] => ([], none)
  | va :: rest =>
    let (t, r) := volAttachStep env force va
    match r with
    | some e => (t, some e)
    | none =>
      let (t2, r2) := volAttachListLoop env force rest
      (t ++ t2, r2)

/-- The body of `cleanupDyingEntityStorage` over the already-resolved
host filesystem list: destroy the host's filesystems, run the
filesystem-attachment loop, remove the host filesystems (non-manual
hosts only), then detach the remaining volumes. -/
def cleanupDyingEntityStorageBody (env : Env) (manual : Bool)
    (filesystems : List String) (fsAttachments : List FsAttach)
    (volAttachments : List VolAttach) (force : Bool) :
    List Effect × Option Err :=
  let (t1, r1) := destroyFsLoop env force filesystems
  match r1 with
  | some e => (t1, some e)
  | none =>
    let (t2, r2) := fsAttachListLoop env manual force fsAttachments
    match r2 with
    | some e => (t1 ++ t2, some e)
    | none =>
      let (t3, r3) := if manual then ([], none) else removeFsLoop env force filesystems
      match r3 with
      | some e => (t1 ++ t2 ++ t3, some e)
      | none =>
        let (t4, r4) := volAttachListLoop env force volAttachments
        (t1 ++ t2 ++ t3 ++ t4, r4)

/-- `cleanupDyingEntityStorage`: resolve the host's filesystems (an
enumeration error is only logged: the run continues with an empty
filesystem list) and run the teardown body. -/
def cleanupDyingEntityStorageF (env : Env) (hostTag : String) (manual : Bool)
    (fsAttachments : List FsAttach) (volAttachments : List VolAttach)
    (force : Bool) : List Effect × Option Err :=
  let filesystems := match env.hostFilesystems hostTag with
    | .ok l => l
    | .error _ => []
  cleanupDyingEntityStorageBody env manual filesystems fsAttachments
    volAttachments force

/-- `cleanupDyingMachineResources`: enumerate the machine's filesystem
and volume attachments and whether the machine is manual (each failure
aborts unless `force`, which logs and uses the zero value), then run the
shared dying-entity storage teardown. -/
def cleanupDyingMachineResourcesF (env : Env) (machineId : String)
    (force : Bool) : List Effect × Option Err :=
  match env.sbErr with
  | some e => ([], some e)
  | none =>
    match env.machineFsAttachments machineId, force with
    | .error e, false =>
      ([], some (.annotated "getting machine filesystem attachments" e))
    | fsRes, _ =>
      let fsA := match fsRes with | .ok l => l | .error _ => []
      match env.machineVolAttachments machineId, force with
      | .error e, false =>
        ([], some (.annotated "getting machine volume attachments" e))
      | volRes, _ =>
        let volA := match volRes with | .ok l => l | .error _ => []
        match env.machineIsManual machineId, force with
        | .error e, false => ([], some e)
        | manualRes, _ =>
          let manual := match manualRes with | .ok b => b | .error _ => false
          cleanupDyingEntityStorageF env machineId manual fsA volA force

/-- `State.cleanupDyingMachine`: parse the 0-1 args, look up the machine
(not-found is success) and tear down its dying resources. -/
def cleanupDyingMachineF (env : Env) (machineId : String) (args : List Raw) :
    List Effect × Option Err :=
  match parse01 args with
  | .error e => ([], some e)
  | .ok force =>
    match env.lookupMachine machineId with
    | .error e =>
      if e.isNotFound then ([], none) else ([], some e)
    | .ok _ => cleanupDyingMachineResourcesF env machineId force

/-! ## obliterateUnit -/

/-- The subordinate loop of `obliterateUnit`, parameterised over the
recursive call (applied to each subordinate with the same `force`);
sub-errors are collected, a hard error aborts unless `force`. -/
def obliterateSubsLoop (recur : String → List Effect × List Err × Option Err)
    (force : Bool) : List String → List Effect × List Err × Option Err
  | [] => ([], [], none)
  | s :: rest =>
    let (t, errs, r) := recur s
    match r with
    | some e =>
      if !force then (t, errs, some e)
      else
        let (t2, errs2, r2) := obliterateSubsLoop recur force rest
        (t ++ t2, errs ++ e :: errs2, r2)
    | none =>
      let (t2, errs2, r2) := obliterateSubsLoop recur force rest
      (t ++ t2, errs ++ errs2, r2)

/-- The tail of `obliterateUnit` after the subordinate loop: `EnsureDead`
then `RemoveWithForce`. -/
def obliterateFinish (env : Env) (unitName : String) (force : Bool)
    (acc : List Effect) (opErrs : List Err) : List Effect × List Err × Option Err :=
  let effDead := Effect.ensureDeadUnit unitName
  match env.ensureDeadUnit unitName with
  | some e =>
    if !force then (acc ++ [effDead], opErrs, some e)
    else obliterateRemove env unitName force (acc ++ [effDead]) (opErrs ++ [e])
  | none => obliterateRemove env unitName force (acc ++ [effDead]) opErrs
where
  obliterateRemove (env : Env) (unitName : String) (force : Bool)
      (acc : List Effect) (opErrs : List Err) : List Effect × List Err × Option Err :=
    let (errs, r) := env.removeUnitWithForce unitName force
    (acc ++ [Effect.removeUnitWithForce unitName force], opErrs ++ errs, r)

/-- The subordinate phase of `obliterateUnit` (parameterised over the
recursive call): run the subordinate loop, then the finish. -/
def obliterateSubs (env : Env) (recur : String → List Effect × List Err × Option Err)
    (unitName : String) (force : Bool) (u : UnitInfo) (acc : List Effect)
    (opErrs : List Err) : List Effect × List Err × Option Err :=
  let (t, errs, r) := obliterateSubsLoop recur force u.subordinates
  match r with
  | some e => (acc ++ t, opErrs ++ errs, some e)
  | none => obliterateFinish env unitName force (acc ++ t) (opErrs ++ errs)

/-- The storage phase of `obliterateUnit`: destroy and remove the unit's
storage attachments, then the subordinate phase. -/
def obliterateStorage (env : Env) (recur : String → List Effect × List Err × Option Err)
    (unitName : String) (force : Bool) (u : UnitInfo) (acc : List Effect)
    (opErrs : List Err) : List Effect × List Err × Option Err :=
  let (st, sr) := cleanupUnitStorageAttachmentsF env unitName true force
  match sr with
  | some e =>
    let e' := Err.annotated s!"cannot destroy storage for unit {unitName}" e
    if !force then (acc ++ st, opErrs, some e')
    else obliterateSubs env recur unitName force u (acc ++ st) (opErrs ++ [e'])
  | none => obliterateSubs env recur unitName force u (acc ++ st) opErrs

/-- `unit.Refresh()` and everything after it in `obliterateUnit`; a
not-found refresh ends the obliteration successfully, other refresh
errors abort unless `force` (which keeps the stale unit document). -/
def obliterateAfterDestroy (env : Env)
    (recur : String → List Effect × List Err × Option Err)
    (unitName : String) (force : Bool) (u : UnitInfo) (acc : List Effect)
    (opErrs : List Err) : List Effect × List Err × Option Err :=
  match env.refreshUnit unitName with
  | .error e =>
    if e.isNotFound then (acc, opErrs, none)
    else if !force then (acc, opErrs, some e)
    else obliterateStorage env recur unitName force u acc (opErrs ++ [e])
  | .ok u2 => obliterateStorage env recur unitName force u2 acc opErrs

/-- `State.obliterateUnit`: destroy the unit with force semantics,
refresh it, destroy and remove its storage attachments, recursively
obliterate its subordinates, then `EnsureDead` and `RemoveWithForce`.
Sub-errors are collected in the second component; without `force` the
first hard error aborts.  The recursion is bounded by a fuel
parameter. -/
def obliterateUnitF (env : Env) : Nat → String → Bool → List Effect × List Err × Option Err
  | 0, _, _ => ([], [], some (.other "recursion limit"))
  | fuel+1, unitName, force =>
    match env.lookupUnit unitName with
    | .error e =>
      if e.isNotFound then ([], [], none) else ([], [], some e)
    | .ok u =>
      let effD := Effect.destroyUnitWithForce unitName force
      let (dErrs, dRes) := env.destroyUnitWithForce unitName force
      match dRes with
      | some e =>
        if !force then
          ([effD], dErrs, some (.annotated s!"cannot destroy unit {unitName}" e))
        else
          obliterateAfterDestroy env (fun s => obliterateUnitF env fuel s force)
            unitName force u [effD] (dErrs ++ [e])
      | none =>
        obliterateAfterDestroy env (fun s => obliterateUnitF env fuel s force)
          unitName force u [effD] dErrs

/-! ## cleanupForceDestroyedMachine -/

/-- `cleanupUpgradeSeriesLock`: remove the machine's upgrade-series lock;
not-found is success. -/
def cleanupUpgradeSeriesLockRes (env : Env) (machineId : String) : Option Err :=
  match env.removeUpgradeSeriesLock machineId with
  | some e => if e.isNotFound then none else some e
  | none => none

/-- The container loop of `cleanupContainers`, parameterised over the
recursive force-destroy call: force-destroy each container, then look it
up (not-found ends the loop successfully) and remove its record. -/
def cleanupContainersLoop (recur : String → List Effect × Option Err)
    (env : Env) : List String → List Effect × Option Err
  | [] => ([], none)
  | c :: rest =>
    let (t1, r1) := recur c
    match r1 with
    | some e => (t1, some e)
    | none =>
      match env.lookupMachine c with
      | .error e =>
        if e.isNotFound then (t1, none) else (t1, some e)
      | .ok _ =>
        let eff := Effect.removeMachine c
        match env.removeMachine c with
        | some e => (t1 ++ [eff], some e)
        | none =>
          let (t2, r2) := cleanupContainersLoop recur env rest
          (t1 ++ eff :: t2, r2)

/-- `State.cleanupContainers`: a not-found container enumeration is
success; otherwise run the container loop. -/
def cleanupContainersF (recur : String → List Effect × Option Err)
    (env : Env) (machineId : String) : List Effect × Option Err :=
  match env.containers machineId with
  | .error e => if e.isNotFound then ([], none) else ([], some e)
  | .ok cs => cleanupContainersLoop recur env cs

/-- The principal-unit loop of `cleanupForceDestroyedMachine`: obliterate
each principal unit with force; collected op errors are logged, a hard
error aborts. -/
def obliteratePrincipalsLoop (recur : String → List Effect × List Err × Option Err) :
    List String → List Effect × Option Err
  | [] => ([], none)
  | u :: rest =>
    let (t, _, r) := recur u
    match r with
    | some e => (t, some e)
    | none =>
      let (t2, r2) := obliteratePrincipalsLoop recur rest
      (t ++ t2, r2)

/-- The manager block of `cleanupForceDestroyedMachine`: for a manager
machine, clear the vote flag when set (the first attempt of the guarded
`hasvote` transaction is modelled) and remove the controller machine
reference. -/
def managerPhase (env : Env) (machineId : String) (m : MachineInfo) :
    List Effect × Option Err :=
  if m.isManager then
    let (t1, r1) :=
      if m.hasVote then
        let eff := Effect.setHasVote machineId false
        match env.runHasVoteTxn machineId with
        | some e => ([eff], some e)
        | none => ([eff], none)
      else ([], none)
    match r1 with
    | some e => (t1, some e)
    | none =>
      let eff2 := Effect.removeControllerMachine machineId
      match env.removeControllerMachine machineId with
      | some e => (t1 ++ [eff2], some e)
      | none => (t1 ++ [eff2], none)
  else ([], none)

/-- The part of `cleanupForceDestroyedMachine` that deals with the
machine's own dependents, after the containers have been handled:
obliterate the principal units, tear down the dying machine resources,
run the manager block, refresh (not-found is success), `EnsureDead`, and
remove the open-ports documents.  The machine record itself is never
removed. -/
def machineOwnTeardown (env : Env) (fuel : Nat) (machineId : String)
    (m : MachineInfo) : List Effect × Option Err :=
  let (tp, rp) :=
    obliteratePrincipalsLoop (fun u => obliterateUnitF env fuel u true) m.principals
  match rp with
  | some e => (tp, some e)
  | none =>
    let (ts, rs) := cleanupDyingMachineResourcesF env machineId true
    match rs with
    | some e => (tp ++ ts, some e)
    | none =>
      let (tm, rm) := managerPhase env machineId m
      match rm with
      | some e => (tp ++ ts ++ tm, some e)
      | none =>
        let base := tp ++ ts ++ tm
        match env.refreshMachine machineId with
        | .error e =>
          if e.isNotFound then (base, none) else (base, some e)
        | .ok _ =>
          let effDead := Effect.ensureDeadMachine machineId
          match env.ensureDeadMachine machineId with
          | some e => (base ++ [effDead], some e)
          | none =>
            match env.removePortsOps machineId with
            | .error e => (base ++ [effDead], some e)
            | .ok false => (base ++ [effDead], none)
            | .ok true =>
              let effP := Effect.removePortsTxn machineId
              match env.runRemovePortsTxn machineId with
              | some e => (base ++ [effDead, effP], some e)
              | none => (base ++ [effDead, effP], none)

/-- `State.cleanupForceDestroyedMachine`: look up the machine (not-found
is success); remove the upgrade-series lock; force-destroy and remove
every container; then tear down the machine's own dependents
(`machineOwnTeardown`).  The container recursion is bounded by a fuel
parameter. -/
def cleanupForceDestroyedMachineF (env : Env) : Nat → String → List Effect × Option Err
  | 0, _ => ([], some (.other "recursion limit"))
  | fuel+1, machineId =>
    match env.lookupMachine machineId with
    | .error e =>
      if e.isNotFound then ([], none) else ([], some e)
    | .ok m =>
      let effLock := Effect.removeUpgradeSeriesLock machineId
      match cleanupUpgradeSeriesLockRes env machineId with
      | some e => ([effLock], some e)
      | none =>
        let (tc, rc) :=
          cleanupContainersF (cleanupForceDestroyedMachineF env fuel) env machineId
        match rc with
        | some e => (effLock :: tc, some e)
        | none =>
          let (tt, rt) := machineOwnTeardown env fuel machineId m
          (effLock :: tc ++ tt, rt)

/-- The transitive container closure of a machine under the environment's
container relation, bounded by the same fuel discipline as the recursive
handler. -/
def machineDescendants (env : Env) : Nat → String → List String
  | 0, _ => []
  | fuel+1, machineId =>
    match env.containers machineId with
    | .error _ => []
    | .ok cs => cs.flatMap (fun c => c :: machineDescendants env fuel c)

/-! ## A benign concrete environment (used to instantiate theorems) -/

/-- An environment in which every collaborator operation succeeds and
every enumeration is empty; concrete scenarios override individual
fields. -/
def defaultEnv : Env where
  now := 0
  sbErr := none
  handlerResult := fun _ => none
  removeDoc := fun _ => none
  iterCloseCleanups := none
  lookupUnit := fun _ => .error .notFound
  relationsJoined := fun _ => .ok []
  relationsInScope := fun _ => .ok []
  relationUnit := fun _ _ => .error .notFound
  prepareLeaveScope := fun _ => none
  leaveScope := fun _ => none
  runCleanupOpTxn := fun _ _ => none
  unitStorageAttachments := fun _ => .ok []
  detachStorage := fun _ _ _ => none
  removeStorageAttachment := fun _ _ _ => none
  destroyStorageInstance := fun _ _ _ => none
  releaseStorageInstance := fun _ _ _ => none
  destroyUnitStorageAttachments := fun _ => none
  destroyUnitWithForce := fun _ _ => ([], none)
  removeUnitWithForce := fun _ _ => ([], none)
  ensureDeadUnit := fun _ => none
  refreshUnit := fun _ => .error .notFound
  applicationUnits := fun _ => []
  applyUnitDestroyOp := fun _ _ _ => none
  unitsIterClose := none
  allStorageInstances := .ok []
  lookupMachine := fun _ => .error .notFound
  refreshMachine := fun _ => .error .notFound
  machineIsManual := fun _ => .ok false
  containers := fun _ => .ok []
  removeUpgradeSeriesLock := fun _ => none
  removeMachine := fun _ => none
  runHasVoteTxn := fun _ => none
  removeControllerMachine := fun _ => none
  ensureDeadMachine := fun _ => none
  removePortsOps := fun _ => .ok false
  runRemovePortsTxn := fun _ => none
  machineFsAttachments := fun _ => .ok []
  machineVolAttachments := fun _ => .ok []
  hostFilesystems := fun _ => .ok []
  destroyFilesystem := fun _ => none
  isDetachableFs := fun _ => .ok true
  detachFilesystem := fun _ _ => none
  filesystemGet := fun _ => none
  filesystemVolume := fun _ => .error .notFound
  setFilesystemStatus := fun _ => none
  removeFilesystemAttachment := fun _ _ => none
  removeVolumeAttachmentPlan := fun _ _ => none
  removeFilesystem := fun _ => none
  isDetachableVol := fun _ => .ok true
  detachVolume := fun _ _ => none

/-! ## Theorems: the dispatch loop (C1, C5, C6) -/

/-- When every task-document removal transaction succeeds, the drain
dispatches every document and removes exactly those whose handler
returned nil. -/
lemma cleanupDrain_store_ok (env : Env) (h1 : ∀ id, env.removeDoc id = none)
    (docs : List CleanupDoc) :
    cleanupDrain env docs =
      (docs.map (fun d => Effect.dispatch d.docId),
       (docs.filter (fun d => (dispatchResult env d).isNone)).map (fun d => d.docId),
       none) := by
  induction docs with
  | nil => rfl
  | cons d rest ih =>
    simp only [cleanupDrain]
    cases hd : dispatchResult env d with
    | some e => simp [ih, hd, List.filter_cons]
    | none => simp [h1, ih, hd, List.filter_cons]

/-- Any error produced inside the drain loop is a failed removal
transaction, annotated as the source annotates it. -/
lemma cleanupDrain_err (env : Env) (docs : List CleanupDoc) (e : Err)
    (h : (cleanupDrain env docs).2.2 = some e) :
    ∃ e', (∃ id, env.removeDoc id = some e') ∧
      e = .annotated "cannot remove empty cleanup document" e' := by
  induction docs with
  | nil => simp [cleanupDrain] at h
  | cons d rest ih =>
    simp only [cleanupDrain] at h
    cases hd : dispatchResult env d with
    | some e0 =>
      rw [hd] at h
      rcases hres : cleanupDrain env rest with ⟨t, r, er⟩
      rw [hres] at h
      simp at h
      exact ih (by rw [hres]; exact h)
    | none =>
      rw [hd] at h
      cases hr : env.removeDoc d.docId with
      | some e0 =>
        rw [hr] at h
        simp at h
        exact ⟨e0, ⟨d.docId, hr⟩, h.symm⟩
      | none =>
        rw [hr] at h
        rcases hres : cleanupDrain env rest with ⟨t, r, er⟩
        rw [hres] at h
        simp at h
        exact ih (by rw [hres]; exact h)

/-- C1: in a `Cleanup` run, a due task's document is deleted exactly when
its handler returned nil (shown for runs where the store-level operations
succeed); a handler error leaves the document in place and the drain
continues unchanged with the remaining tasks; and any non-nil error
`Cleanup` returns comes from a store-level failure — a failed removal
transaction or a failed iterator close — never from a handler. -/
theorem cleanup_removes_iff_handler_succeeds (env : Env) (now : Nat)
    (docs : List CleanupDoc) :
    ((∀ id, env.removeDoc id = none) → env.iterCloseCleanups = none →
      (stateCleanup env now docs).2.1 =
        ((docs.filter (dueNow now)).filter
            (fun d => (dispatchResult env d).isNone)).map (fun d => d.docId) ∧
      (stateCleanup env now docs).2.2 = none) ∧
    (∀ d rest e, dispatchResult env d = some e →
      (cleanupDrain env (d :: rest)).2 = (cleanupDrain env rest).2) ∧
    (∀ e, (stateCleanup env now docs).2.2 = some e →
      (∃ e', (∃ id, env.removeDoc id = some e') ∧
        e = .annotated "cannot remove empty cleanup document" e') ∨
      (∃ e', env.iterCloseCleanups = some e' ∧
        e = .annotated "reading cleanup document" e')) := by
  refine ⟨?_, ?_, ?_⟩
  · intro h1 h2
    simp only [stateCleanup, cleanupDrain_store_ok env h1, h2]
    exact ⟨trivial, trivial⟩
  · intro d rest e hd
    simp only [cleanupDrain, hd]
  · intro e he
    simp only [stateCleanup] at he
    rcases hres : cleanupDrain env (docs.filter (dueNow now)) with ⟨t, r, er⟩
    rw [hres] at he
    cases er with
    | some e0 =>
      simp at he
      left
      exact he ▸ cleanupDrain_err env _ e0 (by rw [hres])
    | none =>
      cases hc : env.iterCloseCleanups with
      | some ce =>
        rw [hc] at he
        simp at he
        right
        refine ⟨ce, ?_, ?_⟩
        · first
          | exact hc
          | rfl
        · first
          | exact he
          | exact he.symm
      | none => rw [hc] at he; simp at he

/-- A due dying-unit task whose handler succeeds. -/
def docA : CleanupDoc :=
  { docId := "a", kind := kindDyingUnit, whenAt := some 0, pfx := "u/0", args := [] }

/-- A legacy charm task (no `when` field) whose handler fails. -/
def docB : CleanupDoc :=
  { docId := "b", kind := kindCharm, whenAt := none, pfx := "ch", args := [] }

/-- An environment in which the handler of `docB` fails and everything
else succeeds. -/
def envC1 : Env :=
  { defaultEnv with
    handlerResult := fun d => if d.docId = "b" then some (.other "boom") else none }

theorem cleanup_removes_iff_handler_succeeds_witness :
    (stateCleanup envC1 5 [docA, docB]).2.1 = ["a"] ∧
    (stateCleanup envC1 5 [docA, docB]).2.2 = none := by
  have h := (cleanup_removes_iff_handler_succeeds envC1 5 [docA, docB]).1
    (fun _ => rfl) rfl
  refine ⟨h.1.trans ?_, h.2⟩
  rfl

/-- C5: a task whose kind is not one of the enumerated cleanup kinds
produces the per-task "unknown cleanup kind" error; its document is not
removed, the remaining due tasks are drained exactly as if the task were
absent, and the run returns no error. -/
theorem cleanup_unknown_kind_is_nonfatal (env : Env) (now : Nat)
    (pre post : List CleanupDoc) (u : CleanupDoc)
    (hk : u.kind ∉ knownKinds)
    (h1 : ∀ id, env.removeDoc id = none)
    (h2 : env.iterCloseCleanups = none) :
    dispatchResult env u = some (.other ("unknown cleanup kind " ++ u.kind)) ∧
    (stateCleanup env now (pre ++ u :: post)).2.1 =
      (stateCleanup env now (pre ++ post)).2.1 ∧
    (stateCleanup env now (pre ++ u :: post)).2.2 = none ∧
    (u.docId ∉ (pre ++ post).map (fun d => d.docId) →
      u.docId ∉ (stateCleanup env now (pre ++ u :: post)).2.1) := by
  have hd : dispatchResult env u = some (.other ("unknown cleanup kind " ++ u.kind)) := by
    simp [dispatchResult, hk]
  have hrem : (stateCleanup env now (pre ++ u :: post)).2.1 =
      (((pre ++ post).filter (dueNow now)).filter
        (fun d => (dispatchResult env d).isNone)).map (fun d => d.docId) := by
    simp only [stateCleanup, cleanupDrain_store_ok env h1, h2]
    cases hdue : dueNow now u <;>
      simp [List.filter_append, List.filter_cons, hdue, hd]
  have hrem2 : (stateCleanup env now (pre ++ post)).2.1 =
      (((pre ++ post).filter (dueNow now)).filter
        (fun d => (dispatchResult env d).isNone)).map (fun d => d.docId) := by
    simp only [stateCleanup, cleanupDrain_store_ok env h1, h2]
  refine ⟨hd, hrem.trans hrem2.symm, ?_, ?_⟩
  · simp only [stateCleanup, cleanupDrain_store_ok env h1, h2]
  · intro hfresh hmem
    rw [hrem] at hmem
    rcases List.mem_map.1 hmem with ⟨d', hd', hid⟩
    exact hfresh (List.mem_map.2
      ⟨d', List.mem_of_mem_filter (List.mem_of_mem_filter hd'), hid⟩)

/-- A task document with an unknown kind. -/
def docU : CleanupDoc :=
  { docId := "u", kind := "bogus", whenAt := some 0, pfx := "x", args := [] }

theorem cleanup_unknown_kind_is_nonfatal_witness :
    dispatchResult envC1 docU = some (.other "unknown cleanup kind bogus") ∧
    (stateCleanup envC1 5 [docA, docU, docB]).2.1 =
      (stateCleanup envC1 5 [docA, docB]).2.1 ∧
    (stateCleanup envC1 5 [docA, docU, docB]).2.2 = none ∧
    "u" ∉ (stateCleanup envC1 5 [docA, docU, docB]).2.1 := by
  have h := cleanup_unknown_kind_is_nonfatal envC1 5 [docA] [docB] docU
    (by decide) (fun _ => rfl) rfl
  exact ⟨h.1, h.2.1, h.2.2.1, h.2.2.2 (by decide)⟩

/-- The doc ids dispatched in a trace. -/
def dispatchedIds (t : List Effect) : List String :=
  t.filterMap fun e =>
    match e with
    | .dispatch i => some i
    | _ => none

/-- C6: a `Cleanup` pass dispatches exactly the documents whose `when` is
at most the clock's now or absent (shown for runs whose store-level
operations succeed); the zero sentinel time and an absent `when` always
qualify; and a task strictly in the future is neither dispatched nor
removed. -/
theorem cleanup_processes_exactly_due_tasks (env : Env) (now : Nat)
    (docs : List CleanupDoc)
    (h1 : ∀ id, env.removeDoc id = none)
    (hnd : (docs.map (fun d => d.docId)).Nodup) :
    dispatchedIds (stateCleanup env now docs).1 =
      (docs.filter (dueNow now)).map (fun d => d.docId) ∧
    (∀ d : CleanupDoc, d.whenAt = some 0 → dueNow now d = true) ∧
    (∀ d : CleanupDoc, d.whenAt = none → dueNow now d = true) ∧
    (∀ d ∈ docs, dueNow now d = false →
      Effect.dispatch d.docId ∉ (stateCleanup env now docs).1 ∧
      d.docId ∉ (stateCleanup env now docs).2.1) := by
  have htr : (stateCleanup env now docs).1 =
      (docs.filter (dueNow now)).map (fun d => Effect.dispatch d.docId) := by
    simp only [stateCleanup, cleanupDrain_store_ok env h1]
    cases hc : env.iterCloseCleanups <;> simp
  have hrem : (stateCleanup env now docs).2.1 =
      ((docs.filter (dueNow now)).filter
        (fun d => (dispatchResult env d).isNone)).map (fun d => d.docId) := by
    simp only [stateCleanup, cleanupDrain_store_ok env h1]
    cases hc : env.iterCloseCleanups <;> simp
  refine ⟨?_, ?_, ?_, ?_⟩
  · rw [htr]
    simp only [dispatchedIds, List.filterMap_map]
    exact congrFun (List.filterMap_eq_map (fun d : CleanupDoc => d.docId)) _
  · intro d h0
    simp [dueNow, h0]
  · intro d h0
    simp [dueNow, h0]
  · intro d hdm hndue
    have hinj := List.inj_on_of_nodup_map hnd
    constructor
    · rw [htr]
      intro hmem
      rcases List.mem_map.1 hmem with ⟨d', hd', hid⟩
      have hid' : d'.docId = d.docId := by
        injection hid
      have hd'docs := List.mem_of_mem_filter hd'
      have : d' = d := hinj hd'docs hdm hid'
      rw [this] at hd'
      rw [List.mem_filter] at hd'
      rw [hndue] at hd'
      exact absurd hd'.2 (by simp)
    · rw [hrem]
      intro hmem
      rcases List.mem_map.1 hmem with ⟨d', hd', hid⟩
      have hd'docs :=
        List.mem_of_mem_filter (List.mem_of_mem_filter hd')
      have : d' = d := hinj hd'docs hdm hid
      rw [this] at hd'
      have hd'' := List.mem_of_mem_filter hd'
      rw [List.mem_filter] at hd''
      rw [hndue] at hd''
      exact absurd hd''.2 (by simp)

/-- A task strictly in the future. -/
def docF : CleanupDoc :=
  { docId := "f", kind := kindCharm, whenAt := some 99, pfx := "ch", args := [] }

theorem cleanup_processes_exactly_due_tasks_witness :
    dispatchedIds (stateCleanup envC1 5 [docA, docF, docB]).1 = ["a", "b"] ∧
    Effect.dispatch "f" ∉ (stateCleanup envC1 5 [docA, docF, docB]).1 ∧
    "f" ∉ (stateCleanup envC1 5 [docA, docF, docB]).2.1 := by
  have h := cleanup_processes_exactly_due_tasks envC1 5 [docA, docF, docB]
    (fun _ => rfl) (by decide)
  have hf := h.2.2.2 docF (by simp [docF]) (by decide)
  exact ⟨h.1.trans (by decide), hf.1, hf.2⟩

/-! ## Theorems: not-found lookups are success no-ops (C2) -/

/-- C2: each of `cleanupDyingUnit`, `cleanupForceDestroyedUnit`,
`cleanupForceRemoveUnit`, `cleanupDyingMachine` and
`cleanupForceDestroyedMachine`, invoked on an entity whose lookup reports
not-found, returns nil and performs no side effects (for the two
handlers with an argument prelude, provided the arguments parse). -/
theorem handlers_not_found_is_noop (env : Env) (name machineId : String)
    (args margs : List Raw) (p : Bool × Bool) (pm : Bool) (fuel : Nat) :
    (∀ e, env.lookupUnit name = .error e → e.isNotFound = true →
      parse02 args = .ok p →
      cleanupDyingUnitF env name args = ([], none)) ∧
    (∀ e, env.lookupUnit name = .error e → e.isNotFound = true →
      cleanupForceDestroyedUnitF env name = ([], none)) ∧
    (∀ e, env.lookupUnit name = .error e → e.isNotFound = true →
      cleanupForceRemoveUnitF env name = ([], none)) ∧
    (∀ e, env.lookupMachine machineId = .error e → e.isNotFound = true →
      parse01 margs = .ok pm →
      cleanupDyingMachineF env machineId margs = ([], none)) ∧
    (∀ e, env.lookupMachine machineId = .error e → e.isNotFound = true →
      cleanupForceDestroyedMachineF env (fuel + 1) machineId = ([], none)) := by
  refine ⟨?_, ?_, ?_, ?_, ?_⟩
  · intro e hl hnf hp
    simp [cleanupDyingUnitF, hp, hl, hnf]
  · intro e hl hnf
    simp [cleanupForceDestroyedUnitF, hl, hnf]
  · intro e hl hnf
    simp [cleanupForceRemoveUnitF, hl, hnf]
  · intro e hl hnf hp
    simp [cleanupDyingMachineF, hp, hl, hnf]
  · intro e hl hnf
    simp [cleanupForceDestroyedMachineF, hl, hnf]

theorem handlers_not_found_is_noop_witness :
    cleanupDyingUnitF defaultEnv "u/0" [] = ([], none) ∧
    cleanupForceDestroyedUnitF defaultEnv "u/0" = ([], none) ∧
    cleanupForceRemoveUnitF defaultEnv "u/0" = ([], none) ∧
    cleanupDyingMachineF defaultEnv "0" [] = ([], none) ∧
    cleanupForceDestroyedMachineF defaultEnv 1 "0" = ([], none) := by
  have h := handlers_not_found_is_noop defaultEnv "u/0" "0" [] []
    (false, false) false 0
  exact ⟨h.1 .notFound rfl rfl rfl, h.2.1 .notFound rfl rfl,
    h.2.2.1 .notFound rfl rfl, h.2.2.2.1 .notFound rfl rfl rfl,
    h.2.2.2.2 .notFound rfl rfl⟩

/-! ## Theorems: zero-argument legacy defaults (C4) -/

/-- An environment with a single storage instance. -/
def envC4 : Env := { defaultEnv with allStorageInstances := .ok ["s0"] }

/-- C4 counterexample: for `cleanupStorageForDyingModel`, an empty args
list is NOT equivalent to the explicit `[false, false]` args list: with a
single storage instance the zero-args legacy path destroys the instance
while `[false, false]` releases it. -/
theorem zero_args_storage_model_differs :
    cleanupStorageForDyingModelF envC4 [] ≠
      cleanupStorageForDyingModelF envC4 [Raw.bool false, Raw.bool false] := by
  decide

/-- C4 amended: for `cleanupDyingUnit` and
`cleanupUnitsForDyingApplication` an empty args list behaves exactly like
the explicit `[false, false]` list; for `cleanupStorageForDyingModel` the
legacy default corresponds to `[true, false]` (destroy, not release). -/
theorem zero_args_equals_legacy_defaults (env : Env) (name app : String) :
    cleanupDyingUnitF env name [] =
      cleanupDyingUnitF env name [Raw.bool false, Raw.bool false] ∧
    cleanupUnitsForDyingApplicationF env app [] =
      cleanupUnitsForDyingApplicationF env app [Raw.bool false, Raw.bool false] ∧
    cleanupStorageForDyingModelF env [] =
      cleanupStorageForDyingModelF env [Raw.bool true, Raw.bool false] := by
  refine ⟨rfl, rfl, ?_⟩
  cases h : env.sbErr <;>
    simp [cleanupStorageForDyingModelF, h,
      cleanupStorageForDyingModelF.parseStorageArgs, unmarshalBool]

/-! ## Theorems: backstop scheduling failures are swallowed (C10) -/

/-- Under `force`, the relations loop of `cleanupDyingUnit` never
returns an error: every failure is logged and skipped. -/
lemma dyingUnitRelLoop_force_ok (env : Env) (name : String) :
    ∀ rels, (dyingUnitRelLoop env name true rels).2 = none := by
  intro rels
  induction rels with
  | nil => rfl
  | cons r rest ih =>
    simp only [dyingUnitRelLoop]
    cases hr : env.relationUnit r name with
    | error e =>
      by_cases hnf : e.isNotFound = true <;> simp [hnf, ih]
    | ok ru =>
      rcases hres : dyingUnitRelLoop env name true rest with ⟨t, res⟩
      rw [hres] at ih
      cases hp : env.prepareLeaveScope ru <;> simp [hp, hres, ih]

/-- Under `force`, the relations phase of `cleanupDyingUnit` never
returns an error. -/
lemma dyingUnitRelationsPhase_force_ok (env : Env) (name : String) :
    (dyingUnitRelationsPhase env name true).2 = none := by
  unfold dyingUnitRelationsPhase
  cases h : env.relationsJoined name with
  | error e => rfl
  | ok rels => exact dyingUnitRelLoop_force_ok env name rels

/-- C10: even when every transaction enqueuing a force backstop task
fails, `scheduleForceCleanup` reports nothing: its outcome is the same
as on success; consequently `cleanupDyingUnit` with `force=true` still
returns exactly its storage phase's result, and
`cleanupForceDestroyedUnit` (with `EnsureDead` succeeding) still returns
nil — so the dispatch loop deletes their task records although the
backstop task may never have been persisted. -/
theorem backstop_txn_failure_not_reported (env : Env) (e0 : Err)
    (name unitId : String) (ds : Bool) (u v : UnitInfo)
    (htxn : ∀ k n, env.runCleanupOpTxn k n = some e0) :
    (∀ k n, scheduleForceCleanupF env k n =
      [Effect.scheduleForce k n (env.now + forceTimeout)]) ∧
    (env.lookupUnit name = .ok u →
      (cleanupDyingUnitF env name [Raw.bool ds, Raw.bool true]).2 =
        (if ds then cleanupUnitStorageInstancesF env name true
         else cleanupUnitStorageAttachmentsF env name false true).2) ∧
    (env.lookupUnit unitId = .ok v → env.ensureDeadUnit unitId = none →
      (cleanupForceDestroyedUnitF env unitId).2 = none) := by
  refine ⟨?_, ?_, ?_⟩
  · intro k n
    unfold scheduleForceCleanupF
    rw [htxn]
  · intro hl
    simp only [cleanupDyingUnitF, parse02, unmarshalBool, hl]
    rcases hres : dyingUnitRelationsPhase env name true with ⟨rtr, rres⟩
    have := dyingUnitRelationsPhase_force_ok env name
    rw [hres] at this
    simp only at this
    subst this
    cases ds <;> simp
  · intro hl hdead
    simp [cleanupForceDestroyedUnitF, hl, hdead]

/-- An environment in which the backstop-enqueue transaction always
fails but the unit exists and everything else succeeds. -/
def envC10 : Env :=
  { defaultEnv with
    runCleanupOpTxn := fun _ _ => some (.other "txn refused")
    lookupUnit := fun _ => .ok { subordinates := [] } }

theorem backstop_txn_failure_not_reported_witness :
    scheduleForceCleanupF envC10 kindForceRemoveUnit "u/0" =
      [Effect.scheduleForce kindForceRemoveUnit "u/0" 0] ∧
    (cleanupDyingUnitF envC10 "u/0" [Raw.bool false, Raw.bool true]).2 = none ∧
    (cleanupForceDestroyedUnitF envC10 "u/0").2 = none := by
  have h := backstop_txn_failure_not_reported envC10 (.other "txn refused")
    "u/0" "u/0" false { subordinates := [] } { subordinates := [] }
    (fun _ _ => rfl)
  refine ⟨h.1 kindForceRemoveUnit "u/0", ?_, h.2.2 rfl rfl⟩
  have h2 := h.2.1 rfl
  rw [h2]
  decide

/-! ## Theorems: cleanupForceDestroyedUnit (C3) -/

/-- The subordinate-destruction phase never schedules a cleanup. -/
lemma scheduleForce_not_in_subsLoop (env : Env) (k n : String) (t0 : Nat) :
    ∀ subs, Effect.scheduleForce k n t0 ∉ forceDestroySubsLoop env subs := by
  intro subs
  induction subs with
  | nil => simp [forceDestroySubsLoop]
  | cons s rest ih =>
    simp only [forceDestroySubsLoop]
    cases h : env.lookupUnit s with
    | error e =>
      by_cases hnf : e.isNotFound = true <;> simp [hnf, ih]
    | ok u => simp [ih]

/-- The leave-scope phase never schedules a cleanup. -/
lemma scheduleForce_not_in_leaveScope (env : Env) (unitId k n : String) (t0 : Nat) :
    Effect.scheduleForce k n t0 ∉ forceLeaveScopePhase env unitId := by
  unfold forceLeaveScopePhase
  cases h : env.relationsInScope unitId with
  | error e => simp
  | ok rels =>
    clear h
    induction rels with
    | nil => simp [forceLeaveScopeLoop]
    | cons r rest ih =>
      simp only [forceLeaveScopeLoop]
      cases h : env.relationUnit r unitId <;> simp [ih]

/-- The storage-detach phase never schedules a cleanup. -/
lemma scheduleForce_not_in_forceRemoveStorage (env : Env) (unitId k n : String)
    (t0 : Nat) :
    Effect.scheduleForce k n t0 ∉ (forceRemoveUnitStorageAttachmentsF env unitId).1 := by
  unfold forceRemoveUnitStorageAttachmentsF
  cases h : env.sbErr with
  | some e => simp
  | none =>
    cases h2 : env.destroyUnitStorageAttachments unitId with
    | some e => simp
    | none =>
      cases h3 : env.unitStorageAttachments unitId with
      | error e => simp
      | ok atts => simp

/-- `scheduleForceCleanup` produces exactly one scheduling effect, due at
`now + forceTimeout`, whatever its transaction returns. -/
lemma scheduleForceCleanupF_eq (env : Env) (k n : String) :
    scheduleForceCleanupF env k n =
      [Effect.scheduleForce k n (env.now + forceTimeout)] := by
  unfold scheduleForceCleanupF
  cases h : env.runCleanupOpTxn k n <;> rfl

/-- C3: on an existing unit, `cleanupForceDestroyedUnit` returns an error
exactly when `EnsureDead` returned `ErrUnitHasSubordinates` or
`ErrUnitHasStorageAttachments` (and then returns that very error); in
that blocking case it schedules nothing, leaving its own task pending for
retry; and when `EnsureDead` succeeds it returns nil and its last effect
is scheduling a `forceRemoveUnit` task for the same unit due at the
clock's now plus the configured force timeout. -/
theorem force_destroyed_unit_retry_and_backstop (env : Env) (unitId : String)
    (u : UnitInfo) (hl : env.lookupUnit unitId = .ok u) :
    (∀ e, (cleanupForceDestroyedUnitF env unitId).2 = some e ↔
      (env.ensureDeadUnit unitId = some e ∧
        (e = .unitHasSubordinates ∨ e = .unitHasStorageAttachments))) ∧
    ((∃ e, env.ensureDeadUnit unitId = some e ∧
        (e = .unitHasSubordinates ∨ e = .unitHasStorageAttachments)) →
      ∀ k n t0, Effect.scheduleForce k n t0 ∉ (cleanupForceDestroyedUnitF env unitId).1) ∧
    (env.ensureDeadUnit unitId = none →
      (cleanupForceDestroyedUnitF env unitId).2 = none ∧
      ∃ pre, (cleanupForceDestroyedUnitF env unitId).1 =
        pre ++ [Effect.scheduleForce kindForceRemoveUnit unitId
          (env.now + forceTimeout)]) := by
  rcases h3 : forceRemoveUnitStorageAttachmentsF env unitId with ⟨t3, r3⟩
  have hout : cleanupForceDestroyedUnitF env unitId =
      (match env.ensureDeadUnit unitId with
      | some e =>
        if e = .unitHasSubordinates ∨ e = .unitHasStorageAttachments then
          (forceDestroySubsLoop env u.subordinates ++
            forceLeaveScopePhase env unitId ++ t3 ++
            [Effect.ensureDeadUnit unitId], some e)
        else (forceDestroySubsLoop env u.subordinates ++
            forceLeaveScopePhase env unitId ++ t3 ++
            [Effect.ensureDeadUnit unitId] ++
            scheduleForceCleanupF env kindForceRemoveUnit unitId, none)
      | none =>
        (forceDestroySubsLoop env u.subordinates ++
          forceLeaveScopePhase env unitId ++ t3 ++
          [Effect.ensureDeadUnit unitId] ++
          scheduleForceCleanupF env kindForceRemoveUnit unitId, none)) := by
    simp only [cleanupForceDestroyedUnitF, hl, h3]
  refine ⟨?_, ?_, ?_⟩
  · intro e
    rw [hout]
    cases hd : env.ensureDeadUnit unitId with
    | none => simp
    | some e0 =>
      by_cases hb : e0 = Err.unitHasSubordinates ∨ e0 = Err.unitHasStorageAttachments
      · simp only [hb, if_true]
        constructor
        · intro he
          simp at he
          exact he ▸ ⟨rfl, he ▸ hb⟩
        · intro ⟨he, _⟩
          simp at he
          simp [he]
      · simp only [hb, if_false]
        constructor
        · intro he
          simp at he
        · intro ⟨he, hbe⟩
          injection he with he
          exact absurd (he ▸ hbe) hb
  · intro ⟨e0, hd, hb⟩ k n t0
    rw [hout]
    simp only [hd, hb, if_true]
    simp only [List.mem_append, List.mem_singleton]
    push_neg
    exact ⟨⟨⟨scheduleForce_not_in_subsLoop env k n t0 u.subordinates,
      scheduleForce_not_in_leaveScope env unitId k n t0⟩,
      fun hm => absurd (h3 ▸ hm : Effect.scheduleForce k n t0 ∈
        (forceRemoveUnitStorageAttachmentsF env unitId).1)
        (scheduleForce_not_in_forceRemoveStorage env unitId k n t0)⟩,
      by simp⟩
  · intro hd
    rw [hout]
    simp only [hd]
    refine ⟨?_, ?_, ?_⟩
    · first
      | rfl
      | trivial
    · exact forceDestroySubsLoop env u.subordinates ++
        forceLeaveScopePhase env unitId ++ t3 ++ [Effect.ensureDeadUnit unitId]
    · rw [scheduleForceCleanupF_eq]

/-- An environment whose unit exists and whose `EnsureDead` reports
blocking subordinates. -/
def envC3a : Env :=
  { defaultEnv with
    lookupUnit := fun _ => .ok { subordinates := [] }
    ensureDeadUnit := fun _ => some .unitHasSubordinates }

/-- An environment whose unit exists and whose `EnsureDead` succeeds. -/
def envC3b : Env :=
  { defaultEnv with lookupUnit := fun _ => .ok { subordinates := [] } }

theorem force_destroyed_unit_retry_and_backstop_witness :
    (cleanupForceDestroyedUnitF envC3a "u/0").2 = some .unitHasSubordinates ∧
    Effect.scheduleForce kindForceRemoveUnit "u/0" 0 ∉
      (cleanupForceDestroyedUnitF envC3a "u/0").1 ∧
    (cleanupForceDestroyedUnitF envC3b "u/0").2 = none := by
  have ha := force_destroyed_unit_retry_and_backstop envC3a "u/0"
    { subordinates := [] } rfl
  have hb := force_destroyed_unit_retry_and_backstop envC3b "u/0"
    { subordinates := [] } rfl
  exact ⟨(ha.1 .unitHasSubordinates).2 ⟨rfl, Or.inl rfl⟩,
    ha.2.1 ⟨.unitHasSubordinates, rfl, Or.inl rfl⟩ kindForceRemoveUnit "u/0" 0,
    (hb.2.2 rfl).1⟩

/-! ## Theorems: cleanupDyingUnit storage modes (C7) -/

/-- When every destroy result is nil or not-found, the instance loop
destroys the storage instance of every attachment. -/
lemma storageInstLoop_complete (env : Env) (f : Bool) :
    ∀ atts,
      (∀ s ∈ atts, ∀ e, env.destroyStorageInstance s true f = some e →
        e.isNotFound = true) →
      storageInstLoop env f atts =
        (atts.map (fun s => Effect.destroyStorageInstance s true f), none) := by
  intro atts
  induction atts with
  | nil => intro _; rfl
  | cons s rest ih =>
    intro h
    have hrest := ih (fun s' hs' => h s' (List.mem_cons_of_mem s hs'))
    simp only [storageInstLoop]
    cases hd : env.destroyStorageInstance s true f with
    | some e =>
      have := h s (List.mem_cons_self s rest) e hd
      simp [this, hrest]
    | none => simp [hrest]

/-- With `remove = false` and either `force` or only nil/not-found detach
results, the attachment loop detaches every attachment and removes
nothing. -/
lemma storageAttachLoop_detach_complete (env : Env) (name : String) (f : Bool) :
    ∀ atts,
      (f = true ∨ ∀ s ∈ atts, ∀ e, env.detachStorage s name f = some e →
        e.isNotFound = true) →
      storageAttachLoop env name false f atts =
        (atts.map (fun s => Effect.detachStorage s name f), none) := by
  intro atts
  induction atts with
  | nil => intro _; rfl
  | cons s rest ih =>
    intro h
    have hrest := ih (h.imp id (fun hh s' hs' => hh s' (List.mem_cons_of_mem s hs')))
    simp only [storageAttachLoop, storageAttachBody, storageAttachTail]
    cases hd : env.detachStorage s name f with
    | some e =>
      rcases h with hf | hnf
      · subst hf
        by_cases hisnf : e.isNotFound = true <;> simp [hisnf, hrest]
      · have := hnf s (List.mem_cons_self s rest) e hd
        simp [this, hrest]
    | none => simp [hrest]

/-- All effects of the dying-unit relations loop are scope-leave
preparations. -/
lemma dyingUnitRelLoop_effects (env : Env) (name : String) (f : Bool) :
    ∀ rels e, e ∈ (dyingUnitRelLoop env name f rels).1 →
      ∃ ru, e = Effect.prepareLeaveScope ru := by
  intro rels
  induction rels with
  | nil => intro e he; simp [dyingUnitRelLoop] at he
  | cons r rest ih =>
    intro e he
    simp only [dyingUnitRelLoop] at he
    rcases hres : dyingUnitRelLoop env name f rest with ⟨t, res⟩
    rw [hres] at he
    have ih' : ∀ e', e' ∈ t → ∃ ru, e' = Effect.prepareLeaveScope ru := by
      intro e' he'
      exact ih e' (by rw [hres]; exact he')
    repeat' split at he
    all_goals
      first
      | exact ih' e he
      | exact ⟨_, List.mem_singleton.1 he⟩
      | (rcases List.mem_cons.1 he with h1 | h1
         · exact ⟨_, h1⟩
         · exact ih' e h1)
      | simp at he

/-- All effects of the dying-unit relations phase are scope-leave
preparations. -/
lemma dyingUnitRelationsPhase_effects (env : Env) (name : String) (f : Bool) :
    ∀ e, e ∈ (dyingUnitRelationsPhase env name f).1 →
      ∃ ru, e = Effect.prepareLeaveScope ru := by
  intro e he
  unfold dyingUnitRelationsPhase at he
  cases hr : env.relationsJoined name with
  | error e0 =>
    rw [hr] at he
    cases hf : f <;> simp [hf] at he
  | ok rels =>
    rw [hr] at he
    exact dyingUnitRelLoop_effects env name f rels e he

/-- Trace decomposition of `cleanupDyingUnit` on an existing unit with
parsed boolean arguments: relations phase, then the optional force
backstop, then the selected storage phase. -/
lemma cleanupDyingUnitF_decomp (env : Env) (name : String) (u : UnitInfo)
    (ds f : Bool) (hl : env.lookupUnit name = .ok u)
    (hrel : (dyingUnitRelationsPhase env name f).2 = none) :
    cleanupDyingUnitF env name [Raw.bool ds, Raw.bool f] =
      ((dyingUnitRelationsPhase env name f).1 ++
        (if f then [Effect.scheduleForce kindForceDestroyedUnit name
          (env.now + forceTimeout)] else []) ++
        (if ds then cleanupUnitStorageInstancesF env name f
         else cleanupUnitStorageAttachmentsF env name false f).1,
       (if ds then cleanupUnitStorageInstancesF env name f
        else cleanupUnitStorageAttachmentsF env name false f).2) := by
  simp only [cleanupDyingUnitF, parse02, unmarshalBool, hl]
  rcases hres : dyingUnitRelationsPhase env name f with ⟨rtr, rres⟩
  rw [hres] at hrel
  simp only at hrel
  subst hrel
  cases ds <;> cases f <;> simp [scheduleForceCleanupF_eq]

/-- Membership in the optional backstop singleton forces equality with
the scheduling effect. -/
lemma mem_schedOpt_eq {x : Effect} {f : Bool} {k n : String} {t0 : Nat}
    (hmem : x ∈ if f = true then [Effect.scheduleForce k n t0] else []) :
    x = Effect.scheduleForce k n t0 := by
  cases f
  · simp at hmem
  · simpa using hmem

/-- C7: on an existing unit (with the relations phase completing),
`cleanupDyingUnit` with `destroyStorage=true` destroys the storage
instance of every storage attachment of the unit and issues no detach or
attachment-removal calls; with `destroyStorage=false` it detaches every
storage attachment without removing attachment records and without
destroying instances; and with `force=true` it schedules the
`forceDestroyUnit` backstop for the unit due at now plus the force
timeout. -/
theorem dying_unit_storage_modes (env : Env) (name : String) (u : UnitInfo)
    (f : Bool) (atts : List String)
    (hl : env.lookupUnit name = .ok u)
    (hsb : env.sbErr = none)
    (hatts : env.unitStorageAttachments name = .ok atts)
    (hrel : (dyingUnitRelationsPhase env name f).2 = none) :
    ((∀ s ∈ atts, ∀ e, env.destroyStorageInstance s true f = some e →
        e.isNotFound = true) →
      (∀ s ∈ atts, Effect.destroyStorageInstance s true f ∈
        (cleanupDyingUnitF env name [Raw.bool true, Raw.bool f]).1) ∧
      (∀ a b c, Effect.detachStorage a b c ∉
        (cleanupDyingUnitF env name [Raw.bool true, Raw.bool f]).1) ∧
      (∀ a b c, Effect.removeStorageAttachment a b c ∉
        (cleanupDyingUnitF env name [Raw.bool true, Raw.bool f]).1)) ∧
    ((f = true ∨ ∀ s ∈ atts, ∀ e, env.detachStorage s name f = some e →
        e.isNotFound = true) →
      (∀ s ∈ atts, Effect.detachStorage s name f ∈
        (cleanupDyingUnitF env name [Raw.bool false, Raw.bool f]).1) ∧
      (∀ a b c, Effect.removeStorageAttachment a b c ∉
        (cleanupDyingUnitF env name [Raw.bool false, Raw.bool f]).1) ∧
      (∀ a b c, Effect.destroyStorageInstance a b c ∉
        (cleanupDyingUnitF env name [Raw.bool false, Raw.bool f]).1)) ∧
    (f = true →
      ∀ ds : Bool, Effect.scheduleForce kindForceDestroyedUnit name
        (env.now + forceTimeout) ∈
        (cleanupDyingUnitF env name [Raw.bool ds, Raw.bool f]).1) := by
  have hdec := fun ds => cleanupDyingUnitF_decomp env name u ds f hl hrel
  have hrelmem := dyingUnitRelationsPhase_effects env name f
  refine ⟨?_, ?_, ?_⟩
  · intro hok
    have hinst : cleanupUnitStorageInstancesF env name f =
        (atts.map (fun s => Effect.destroyStorageInstance s true f), none) := by
      unfold cleanupUnitStorageInstancesF
      rw [hsb, hatts]
      exact storageInstLoop_complete env f atts hok
    rw [hdec true]
    simp only [if_true]
    rw [hinst]
    refine ⟨?_, ?_, ?_⟩
    · intro s hs
      exact List.mem_append.2 (Or.inr (List.mem_map.2 ⟨s, hs, rfl⟩))
    · intro a b c hmem
      simp only [List.mem_append] at hmem
      rcases hmem with (hmem | hmem) | hmem
      · rcases hrelmem _ hmem with ⟨ru, hru⟩
        exact Effect.noConfusion hru
      · exact Effect.noConfusion (mem_schedOpt_eq hmem)
      · rcases List.mem_map.1 hmem with ⟨s, _, hs⟩
        exact Effect.noConfusion hs
    · intro a b c hmem
      simp only [List.mem_append] at hmem
      rcases hmem with (hmem | hmem) | hmem
      · rcases hrelmem _ hmem with ⟨ru, hru⟩
        exact Effect.noConfusion hru
      · exact Effect.noConfusion (mem_schedOpt_eq hmem)
      · rcases List.mem_map.1 hmem with ⟨s, _, hs⟩
        exact Effect.noConfusion hs
  · intro hok
    have hdet : cleanupUnitStorageAttachmentsF env name false f =
        (atts.map (fun s => Effect.detachStorage s name f), none) := by
      unfold cleanupUnitStorageAttachmentsF
      rw [hsb, hatts]
      exact storageAttachLoop_detach_complete env name f atts hok
    rw [hdec false]
    simp only [if_false]
    rw [hdet]
    refine ⟨?_, ?_, ?_⟩
    · intro s hs
      exact List.mem_append.2 (Or.inr (List.mem_map.2 ⟨s, hs, rfl⟩))
    · intro a b c hmem
      simp only [List.mem_append] at hmem
      rcases hmem with (hmem | hmem) | hmem
      · rcases hrelmem _ hmem with ⟨ru, hru⟩
        exact Effect.noConfusion hru
      · exact Effect.noConfusion (mem_schedOpt_eq hmem)
      · rcases List.mem_map.1 hmem with ⟨s, _, hs⟩
        exact Effect.noConfusion hs
    · intro a b c hmem
      simp only [List.mem_append] at hmem
      rcases hmem with (hmem | hmem) | hmem
      · rcases hrelmem _ hmem with ⟨ru, hru⟩
        exact Effect.noConfusion hru
      · exact Effect.noConfusion (mem_schedOpt_eq hmem)
      · rcases List.mem_map.1 hmem with ⟨s, _, hs⟩
        exact Effect.noConfusion hs
  · intro hf ds
    rw [hdec ds, hf]
    simp [List.mem_append]

/-- An environment with an existing unit with two storage attachments. -/
def envC7 : Env :=
  { defaultEnv with
    lookupUnit := fun _ => .ok { subordinates := [] }
    unitStorageAttachments := fun _ => .ok ["s0", "s1"] }

theorem dying_unit_storage_modes_witness :
    Effect.destroyStorageInstance "s0" true true ∈
      (cleanupDyingUnitF envC7 "u/0" [Raw.bool true, Raw.bool true]).1 ∧
    Effect.detachStorage "s0" "u/0" true ∉
      (cleanupDyingUnitF envC7 "u/0" [Raw.bool true, Raw.bool true]).1 ∧
    Effect.detachStorage "s1" "u/0" true ∈
      (cleanupDyingUnitF envC7 "u/0" [Raw.bool false, Raw.bool true]).1 ∧
    Effect.removeStorageAttachment "s0" "u/0" true ∉
      (cleanupDyingUnitF envC7 "u/0" [Raw.bool false, Raw.bool true]).1 ∧
    Effect.scheduleForce kindForceDestroyedUnit "u/0" 0 ∈
      (cleanupDyingUnitF envC7 "u/0" [Raw.bool false, Raw.bool true]).1 := by
  have h := dying_unit_storage_modes envC7 "u/0" { subordinates := [] } true
    ["s0", "s1"] rfl rfl rfl (dyingUnitRelationsPhase_force_ok envC7 "u/0")
  have h1 := h.1 (fun s hs e he => Option.noConfusion he)
  have h2 := h.2.1 (Or.inl rfl)
  exact ⟨h1.1 "s0" (by simp), h1.2.1 "s0" "u/0" true,
    h2.1 "s1" (by simp), h2.2.1 "s0" "u/0" true,
    h.2.2 rfl false⟩

/-! ## Theorems: cleanupForceDestroyedMachine (C8, C9) -/

/-- When every recursive force-destroy, lookup and removal succeeds, the
container loop force-destroys and then removes every container, in list
order. -/
lemma cleanupContainersLoop_complete (recur : String → List Effect × Option Err)
    (env : Env) :
    ∀ cs, (∀ c ∈ cs, (recur c).2 = none) →
      (∀ c ∈ cs, ∃ mi, env.lookupMachine c = .ok mi) →
      (∀ c ∈ cs, env.removeMachine c = none) →
      cleanupContainersLoop recur env cs =
        (cs.flatMap (fun c => (recur c).1 ++ [Effect.removeMachine c]), none) := by
  intro cs
  induction cs with
  | nil => intro _ _ _; rfl
  | cons c rest ih =>
    intro h1 h2 h3
    have hrest := ih (fun c' hc' => h1 c' (List.mem_cons_of_mem c hc'))
      (fun c' hc' => h2 c' (List.mem_cons_of_mem c hc'))
      (fun c' hc' => h3 c' (List.mem_cons_of_mem c hc'))
    simp only [cleanupContainersLoop]
    rcases hr : recur c with ⟨t1, r1⟩
    have hr1 : r1 = none := by
      have := h1 c (List.mem_cons_self c rest)
      rw [hr] at this
      exact this
    subst hr1
    rcases h2 c (List.mem_cons_self c rest) with ⟨mi, hmi⟩
    rw [hmi, h3 c (List.mem_cons_self c rest), hrest]
    simp [hr]

/-- C8: on an existing machine whose upgrade-series lock removal,
container enumeration, and per-container force-destroy, lookup and
removal all succeed, `cleanupForceDestroyedMachine`'s trace is exactly:
the lock removal, then — for every container in order — the recursive
force-destroy of that container followed by the removal of its record,
and only then the teardown of the machine's own units, storage and
ports. -/
theorem force_destroyed_machine_containers_first (env : Env) (fuel : Nat)
    (machineId : String) (m : MachineInfo) (cs : List String)
    (hl : env.lookupMachine machineId = .ok m)
    (hlock : cleanupUpgradeSeriesLockRes env machineId = none)
    (hcs : env.containers machineId = .ok cs)
    (hrec : ∀ c ∈ cs, (cleanupForceDestroyedMachineF env fuel c).2 = none)
    (hlook : ∀ c ∈ cs, ∃ mi, env.lookupMachine c = .ok mi)
    (hrm : ∀ c ∈ cs, env.removeMachine c = none) :
    cleanupForceDestroyedMachineF env (fuel + 1) machineId =
      (Effect.removeUpgradeSeriesLock machineId ::
        cs.flatMap (fun c => (cleanupForceDestroyedMachineF env fuel c).1 ++
          [Effect.removeMachine c]) ++
        (machineOwnTeardown env fuel machineId m).1,
       (machineOwnTeardown env fuel machineId m).2) := by
  simp only [cleanupForceDestroyedMachineF, hl, hlock, cleanupContainersF, hcs]
  rw [cleanupContainersLoop_complete _ env cs hrec hlook hrm]

/-- A machine document with no principals, not a manager. -/
def plainMachine : MachineInfo :=
  { principals := [], isManager := false, hasVote := false }

/-- An environment where machine "0" hosts one container "c1" and every
operation succeeds. -/
def envC8 : Env :=
  { defaultEnv with
    lookupMachine := fun _ => .ok plainMachine
    refreshMachine := fun _ => .ok plainMachine
    containers := fun id => if id = "0" then .ok ["c1"] else .ok [] }

theorem force_destroyed_machine_containers_first_witness :
    cleanupForceDestroyedMachineF envC8 2 "0" =
      (Effect.removeUpgradeSeriesLock "0" ::
        (["c1"].flatMap (fun c => (cleanupForceDestroyedMachineF envC8 1 c).1 ++
          [Effect.removeMachine c])) ++
        (machineOwnTeardown envC8 1 "0" plainMachine).1,
       (machineOwnTeardown envC8 1 "0" plainMachine).2) := by
  exact force_destroyed_machine_containers_first envC8 1 "0" plainMachine ["c1"]
    rfl rfl (by simp [envC8])
    (by intro c hc; simp at hc; subst hc; decide)
    (by intro c hc; exact ⟨plainMachine, rfl⟩)
    (by intro c hc; rfl)

/-- The machine-record removals recorded in a trace. -/
def machineRemovals : List Effect → List String
  | [] => []
  | Effect.removeMachine x :: t => x :: machineRemovals t
  | _ :: t => machineRemovals t

@[simp] lemma machineRemovals_nil : machineRemovals [] = [] := rfl

@[simp] lemma machineRemovals_append (a b : List Effect) :
    machineRemovals (a ++ b) = machineRemovals a ++ machineRemovals b := by
  induction a with
  | nil => rfl
  | cons e t ih =>
    cases e <;> simp [machineRemovals, ih]

lemma mem_machineRemovals_of_mem {x : String} {t : List Effect}
    (h : Effect.removeMachine x ∈ t) : x ∈ machineRemovals t := by
  induction t with
  | nil => simp at h
  | cons e rest ih =>
    rcases List.mem_cons.1 h with h1 | h1
    · rw [← h1]
      simp [machineRemovals]
    · cases e <;> simp [machineRemovals, ih h1]

/-- None of the unit-obliteration machinery removes a machine record. -/
lemma mr_storageAttachTail (env : Env) (n : String) (r f : Bool) (s : String) :
    machineRemovals (storageAttachTail env n r f s).1 = [] := by
  unfold storageAttachTail
  repeat' split
  all_goals simp [machineRemovals]

lemma mr_storageAttachBody (env : Env) (n : String) (r f : Bool) (s : String) :
    machineRemovals (storageAttachBody env n r f s).1 = [] := by
  unfold storageAttachBody
  have ht := mr_storageAttachTail env n r f s
  rcases h : storageAttachTail env n r f s with ⟨tt, rt⟩
  rw [h] at ht
  repeat' split
  all_goals simp_all [machineRemovals]

lemma mr_storageAttachLoop (env : Env) (n : String) (r f : Bool) :
    ∀ l, machineRemovals (storageAttachLoop env n r f l).1 = [] := by
  intro l
  induction l with
  | nil => rfl
  | cons s rest ih =>
    simp only [storageAttachLoop]
    have hb := mr_storageAttachBody env n r f s
    rcases h : storageAttachBody env n r f s with ⟨tb, rb⟩
    rw [h] at hb
    rcases h2 : storageAttachLoop env n r f rest with ⟨tl, rl⟩
    rw [h2] at ih
    cases rb <;> simp [machineRemovals, hb, ih]

lemma mr_cleanupUnitStorageAttachmentsF (env : Env) (n : String) (r f : Bool) :
    machineRemovals (cleanupUnitStorageAttachmentsF env n r f).1 = [] := by
  unfold cleanupUnitStorageAttachmentsF
  repeat' split
  all_goals simp [machineRemovals, mr_storageAttachLoop]

lemma mr_obliterateFinish (env : Env) (n : String) (f : Bool)
    (acc : List Effect) (errs : List Err) (hacc : machineRemovals acc = []) :
    machineRemovals (obliterateFinish env n f acc errs).1 = [] := by
  unfold obliterateFinish obliterateFinish.obliterateRemove
  repeat' split
  all_goals simp [machineRemovals, hacc]

lemma mr_obliterateSubsLoop (recur : String → List Effect × List Err × Option Err)
    (f : Bool) (hrec : ∀ s, machineRemovals (recur s).1 = []) :
    ∀ l, machineRemovals (obliterateSubsLoop recur f l).1 = [] := by
  intro l
  induction l with
  | nil => rfl
  | cons s rest ih =>
    simp only [obliterateSubsLoop]
    have hr := hrec s
    rcases h : recur s with ⟨t1, e1, r1⟩
    rw [h] at hr
    rcases h2 : obliterateSubsLoop recur f rest with ⟨t2, e2, r2⟩
    rw [h2] at ih
    repeat' split
    all_goals simp_all [machineRemovals]

lemma mr_obliterateSubs (env : Env)
    (recur : String → List Effect × List Err × Option Err)
    (n : String) (f : Bool) (u : UnitInfo) (acc : List Effect) (errs : List Err)
    (hrec : ∀ s, machineRemovals (recur s).1 = [])
    (hacc : machineRemovals acc = []) :
    machineRemovals (obliterateSubs env recur n f u acc errs).1 = [] := by
  unfold obliterateSubs
  have hl := mr_obliterateSubsLoop recur f hrec u.subordinates
  rcases h : obliterateSubsLoop recur f u.subordinates with ⟨t1, e1, r1⟩
  rw [h] at hl
  cases r1 with
  | some e => simp [machineRemovals, hacc, hl]
  | none =>
    simp only
    exact mr_obliterateFinish env n f (acc ++ t1) (errs ++ e1)
      (by simp [hacc, hl])

lemma mr_obliterateStorage (env : Env)
    (recur : String → List Effect × List Err × Option Err)
    (n : String) (f : Bool) (u : UnitInfo) (acc : List Effect) (errs : List Err)
    (hrec : ∀ s, machineRemovals (recur s).1 = [])
    (hacc : machineRemovals acc = []) :
    machineRemovals (obliterateStorage env recur n f u acc errs).1 = [] := by
  unfold obliterateStorage
  have hs := mr_cleanupUnitStorageAttachmentsF env n true f
  rcases h : cleanupUnitStorageAttachmentsF env n true f with ⟨t1, r1⟩
  rw [h] at hs
  try rw [h]
  repeat' split
  all_goals
    first
    | exact mr_obliterateSubs env recur n _ u _ _ hrec
        (by simp_all [machineRemovals])
    | simp_all [machineRemovals]

lemma mr_obliterateAfterDestroy (env : Env)
    (recur : String → List Effect × List Err × Option Err)
    (n : String) (f : Bool) (u : UnitInfo) (acc : List Effect) (errs : List Err)
    (hrec : ∀ s, machineRemovals (recur s).1 = [])
    (hacc : machineRemovals acc = []) :
    machineRemovals (obliterateAfterDestroy env recur n f u acc errs).1 = [] := by
  unfold obliterateAfterDestroy
  repeat' split
  all_goals
    first
    | exact mr_obliterateStorage env recur n _ _ acc _ hrec hacc
    | simp_all [machineRemovals]

lemma mr_obliterateUnitF (env : Env) :
    ∀ fuel n f, machineRemovals (obliterateUnitF env fuel n f).1 = [] := by
  intro fuel
  induction fuel with
  | zero => intro n f; rfl
  | succ fuel ih =>
    intro n f
    have hrec : ∀ s, machineRemovals (obliterateUnitF env fuel s f).1 = [] :=
      fun s => ih s f
    simp only [obliterateUnitF]
    repeat' split
    all_goals
      first
      | exact mr_obliterateAfterDestroy env _ n f _ _ _ hrec
          (by simp_all [machineRemovals])
      | simp_all [machineRemovals]

lemma mr_obliteratePrincipalsLoop
    (recur : String → List Effect × List Err × Option Err)
    (hrec : ∀ s, machineRemovals (recur s).1 = []) :
    ∀ l, machineRemovals (obliteratePrincipalsLoop recur l).1 = [] := by
  intro l
  induction l with
  | nil => rfl
  | cons s rest ih =>
    simp only [obliteratePrincipalsLoop]
    have hr := hrec s
    rcases h : recur s with ⟨t1, e1, r1⟩
    rw [h] at hr
    rcases h2 : obliteratePrincipalsLoop recur rest with ⟨t2, r2⟩
    rw [h2] at ih
    cases r1 <;> simp_all [machineRemovals]

/-- None of the dying-entity storage teardown removes a machine record. -/
lemma mr_fsAttachStatus (env : Env) (f : Bool) (fsa : FsAttach) (su : Bool)
    (acc : List Effect) (hacc : machineRemovals acc = []) :
    machineRemovals (fsAttachRemoveBlock.fsAttachStatus env f fsa su acc).1 = [] := by
  unfold fsAttachRemoveBlock.fsAttachStatus
  repeat' split
  all_goals simp_all [machineRemovals]

lemma mr_fsAttachRemoveVol (env : Env) (f : Bool) (fsa : FsAttach)
    (volOpt : Option String) (su : Bool) (acc : List Effect)
    (hacc : machineRemovals acc = []) :
    machineRemovals
      (fsAttachRemoveBlock.fsAttachRemoveVol env f fsa volOpt su acc).1 = [] := by
  unfold fsAttachRemoveBlock.fsAttachRemoveVol
  repeat' split
  all_goals
    first
    | exact mr_fsAttachStatus env _ fsa _ _ (by simp_all [machineRemovals])
    | simp_all [machineRemovals]

lemma mr_fsAttachRemoveBlock (env : Env) (f : Bool) (fsa : FsAttach)
    (volOpt : Option String) (su : Bool) :
    machineRemovals (fsAttachRemoveBlock env f fsa volOpt su).1 = [] := by
  unfold fsAttachRemoveBlock
  repeat' split
  all_goals
    first
    | exact mr_fsAttachRemoveVol env _ fsa _ _ _ (by simp [machineRemovals])
    | simp_all [machineRemovals]

lemma mr_fsAttachNonManual (env : Env) (f : Bool) (fsa : FsAttach)
    (det : Bool) :
    machineRemovals (fsAttachNonManual env f fsa det).1 = [] := by
  unfold fsAttachNonManual
  repeat' split
  all_goals
    first
    | exact mr_fsAttachRemoveBlock env _ fsa _ _
    | simp_all [machineRemovals]

lemma mr_fsAttachManualSwitch (env : Env) (manual f : Bool) (fsa : FsAttach)
    (det : Bool) (acc : List Effect) (hacc : machineRemovals acc = []) :
    machineRemovals
      (fsAttachStep.fsAttachManualSwitch env manual f fsa det acc).1 = [] := by
  unfold fsAttachStep.fsAttachManualSwitch
  have m := mr_fsAttachNonManual env f fsa det
  rcases h : fsAttachNonManual env f fsa det with ⟨t, r⟩
  rw [h] at m
  repeat' split
  all_goals simp_all [machineRemovals]

lemma mr_fsAttachDetach (env : Env) (manual f : Bool) (fsa : FsAttach)
    (det : Bool) :
    machineRemovals (fsAttachStep.fsAttachDetach env manual f fsa det).1 = [] := by
  unfold fsAttachStep.fsAttachDetach
  repeat' split
  all_goals
    first
    | exact mr_fsAttachManualSwitch env _ _ fsa _ _ (by simp [machineRemovals])
    | simp_all [machineRemovals]

lemma mr_fsAttachStep (env : Env) (manual f : Bool) (fsa : FsAttach) :
    machineRemovals (fsAttachStep env manual f fsa).1 = [] := by
  unfold fsAttachStep
  repeat' split
  all_goals
    first
    | exact mr_fsAttachDetach env _ _ fsa _
    | simp_all [machineRemovals]

lemma mr_fsAttachListLoop (env : Env) (manual f : Bool) :
    ∀ l, machineRemovals (fsAttachListLoop env manual f l).1 = [] := by
  intro l
  induction l with
  | nil => rfl
  | cons fsa rest ih =>
    simp only [fsAttachListLoop]
    have hs := mr_fsAttachStep env manual f fsa
    rcases h : fsAttachStep env manual f fsa with ⟨t, r⟩
    rw [h] at hs
    rcases h2 : fsAttachListLoop env manual f rest with ⟨t2, r2⟩
    rw [h2] at ih
    repeat' split
    all_goals simp_all [machineRemovals]

lemma mr_destroyFsLoop (env : Env) (f : Bool) :
    ∀ l, machineRemovals (destroyFsLoop env f l).1 = [] := by
  intro l
  induction l with
  | nil => rfl
  | cons f0 rest ih =>
    simp only [destroyFsLoop]
    rcases h2 : destroyFsLoop env f rest with ⟨t2, r2⟩
    rw [h2] at ih
    repeat' split
    all_goals simp_all [machineRemovals]

lemma mr_removeFsLoop (env : Env) (f : Bool) :
    ∀ l, machineRemovals (removeFsLoop env f l).1 = [] := by
  intro l
  induction l with
  | nil => rfl
  | cons f0 rest ih =>
    simp only [removeFsLoop]
    rcases h2 : removeFsLoop env f rest with ⟨t2, r2⟩
    rw [h2] at ih
    repeat' split
    all_goals simp_all [machineRemovals]

lemma mr_volAttachDetach (env : Env) (f : Bool) (va : VolAttach) :
    machineRemovals (volAttachStep.volAttachDetach env f va).1 = [] := by
  unfold volAttachStep.volAttachDetach
  repeat' split
  all_goals simp_all [machineRemovals]

lemma mr_volAttachStep (env : Env) (f : Bool) (va : VolAttach) :
    machineRemovals (volAttachStep env f va).1 = [] := by
  unfold volAttachStep
  repeat' split
  all_goals
    first
    | exact mr_volAttachDetach env _ va
    | simp_all [machineRemovals]

lemma mr_volAttachListLoop (env : Env) (f : Bool) :
    ∀ l, machineRemovals (volAttachListLoop env f l).1 = [] := by
  intro l
  induction l with
  | nil => rfl
  | cons va rest ih =>
    simp only [volAttachListLoop]
    have hs := mr_volAttachStep env f va
    rcases h : volAttachStep env f va with ⟨t, r⟩
    rw [h] at hs
    rcases h2 : volAttachListLoop env f rest with ⟨t2, r2⟩
    rw [h2] at ih
    repeat' split
    all_goals simp_all [machineRemovals]

lemma mr_cleanupDyingEntityStorageBody (env : Env) (manual : Bool)
    (fs : List String) (fsA : List FsAttach) (volA : List VolAttach)
    (f : Bool) :
    machineRemovals
      (cleanupDyingEntityStorageBody env manual fs fsA volA f).1 = [] := by
  unfold cleanupDyingEntityStorageBody
  have m1 := mr_destroyFsLoop env f fs
  have m2 := mr_fsAttachListLoop env manual f fsA
  have m3 : machineRemovals
      (if manual = true then (([] : List Effect), (none : Option Err))
       else removeFsLoop env f fs).1 = [] := by
    cases manual <;> simp [mr_removeFsLoop, machineRemovals]
  have m4 := mr_volAttachListLoop env f volA
  repeat' split
  all_goals simp_all [machineRemovals]

lemma mr_cleanupDyingEntityStorageF (env : Env) (host : String)
    (manual : Bool) (fsA : List FsAttach) (volA : List VolAttach) (f : Bool) :
    machineRemovals
      (cleanupDyingEntityStorageF env host manual fsA volA f).1 = [] := by
  unfold cleanupDyingEntityStorageF
  exact mr_cleanupDyingEntityStorageBody env manual _ fsA volA f

lemma mr_cleanupDyingMachineResourcesF (env : Env) (machineId : String)
    (f : Bool) :
    machineRemovals (cleanupDyingMachineResourcesF env machineId f).1 = [] := by
  unfold cleanupDyingMachineResourcesF
  repeat' split
  all_goals
    first
    | exact mr_cleanupDyingEntityStorageF env machineId _ _ _ _
    | simp_all [machineRemovals]

lemma mr_managerPhase (env : Env) (machineId : String) (m : MachineInfo) :
    machineRemovals (managerPhase env machineId m).1 = [] := by
  unfold managerPhase
  have mv : machineRemovals
      (if m.hasVote = true then
        match env.runHasVoteTxn machineId with
        | some e => ([Effect.setHasVote machineId false], some e)
        | none => ([Effect.setHasVote machineId false], none)
      else ([], none)).1 = [] := by
    repeat' split
    all_goals simp [machineRemovals]
  repeat' split
  all_goals simp_all [machineRemovals]

lemma mr_machineOwnTeardown (env : Env) (fuel : Nat) (machineId : String)
    (m : MachineInfo) :
    machineRemovals (machineOwnTeardown env fuel machineId m).1 = [] := by
  unfold machineOwnTeardown
  have hp := mr_obliteratePrincipalsLoop
    (fun u => obliterateUnitF env fuel u true)
    (fun s => mr_obliterateUnitF env fuel s true) m.principals
  have hs := mr_cleanupDyingMachineResourcesF env machineId true
  have hm := mr_managerPhase env machineId m
  repeat' split
  all_goals simp_all [machineRemovals]

/-- Every machine removal of the container loop is a listed container or
comes from the recursive force-destroy of a listed container. -/
lemma machineRemovals_containersLoop (recur : String → List Effect × Option Err)
    (env : Env) :
    ∀ cs x, x ∈ machineRemovals (cleanupContainersLoop recur env cs).1 →
      ∃ c ∈ cs, x = c ∨ x ∈ machineRemovals (recur c).1 := by
  intro cs
  induction cs with
  | nil =>
    intro x hx
    simp [cleanupContainersLoop, machineRemovals] at hx
  | cons c rest ih =>
    intro x hx
    simp only [cleanupContainersLoop] at hx
    rcases h1 : recur c with ⟨t1, r1⟩
    rw [h1] at hx
    rcases h2 : cleanupContainersLoop recur env rest with ⟨t2, r2⟩
    rw [h2] at hx
    have hx1 : x ∈ machineRemovals t1 →
        ∃ c' ∈ c :: rest, x = c' ∨ x ∈ machineRemovals (recur c').1 := by
      intro hm
      exact ⟨c, List.mem_cons_self c rest, Or.inr (by rw [h1]; exact hm)⟩
    cases r1 with
    | some e => exact hx1 hx
    | none =>
      cases hl : env.lookupMachine c with
      | error e =>
        rw [hl] at hx
        have hx' : x ∈ machineRemovals t1 := by
          cases hb : e.isNotFound
          · simpa [hb] using hx
          · simpa [hb] using hx
        exact hx1 hx'
      | ok mi =>
        rw [hl] at hx
        cases hr : env.removeMachine c with
        | some e =>
          rw [hr] at hx
          have hx' : x ∈ machineRemovals (t1 ++ [Effect.removeMachine c]) := hx
          simp only [machineRemovals_append] at hx'
          rcases List.mem_append.1 hx' with hm | hm
          · exact hx1 hm
          · simp [machineRemovals] at hm
            exact ⟨c, List.mem_cons_self c rest, Or.inl hm⟩
        | none =>
          rw [hr] at hx
          have hx' : x ∈ machineRemovals (t1 ++ Effect.removeMachine c :: t2) := hx
          simp only [machineRemovals_append] at hx'
          rcases List.mem_append.1 hx' with hm | hm
          · exact hx1 hm
          · simp only [machineRemovals] at hm
            rcases List.mem_cons.1 hm with hm1 | hm1
            · exact ⟨c, List.mem_cons_self c rest, Or.inl hm1⟩
            · rcases ih x (by rw [h2]; exact hm1) with ⟨c', hc', hd⟩
              exact ⟨c', List.mem_cons_of_mem c hc', hd⟩

/-- Every machine removal of `cleanupForceDestroyedMachine` is a strict
descendant (transitive container) of the machine it was invoked on. -/
lemma machineRemovals_subset_descendants (env : Env) :
    ∀ fuel machineId x,
      x ∈ machineRemovals (cleanupForceDestroyedMachineF env fuel machineId).1 →
      x ∈ machineDescendants env fuel machineId := by
  intro fuel
  induction fuel with
  | zero =>
    intro id x hx
    simp [cleanupForceDestroyedMachineF, machineRemovals] at hx
  | succ fuel ih =>
    intro id x hx
    simp only [cleanupForceDestroyedMachineF] at hx
    cases hl : env.lookupMachine id with
    | error e =>
      simp only [hl] at hx
      by_cases hnf : e.isNotFound = true <;> simp [hnf, machineRemovals] at hx
    | ok m =>
      simp only [hl] at hx
      cases hlock : cleanupUpgradeSeriesLockRes env id with
      | some e =>
        simp only [hlock] at hx
        simp [machineRemovals] at hx
      | none =>
        simp only [hlock] at hx
        rcases hc : cleanupContainersF (cleanupForceDestroyedMachineF env fuel)
          env id with ⟨tc, rc⟩
        simp only [hc] at hx
        rcases ht : machineOwnTeardown env fuel id m with ⟨tt, rt⟩
        simp only [ht] at hx
        have hmtt : machineRemovals tt = [] := by
          have h0 := mr_machineOwnTeardown env fuel id m
          rw [ht] at h0
          exact h0
        have hxc : x ∈ machineRemovals tc := by
          cases rc with
          | some e =>
            have hx' : x ∈ machineRemovals
                (Effect.removeUpgradeSeriesLock id :: tc) := hx
            simpa [machineRemovals] using hx'
          | none =>
            have hx' : x ∈ machineRemovals
                (Effect.removeUpgradeSeriesLock id :: tc ++ tt) := hx
            simpa [machineRemovals, machineRemovals_append, List.append_eq,
              hmtt] using hx'
        unfold cleanupContainersF at hc
        cases hcs : env.containers id with
        | error e =>
          rw [hcs] at hc
          have hc' : (if e.isNotFound = true
              then (([] : List Effect), (none : Option Err))
              else ([], some e)) = (tc, rc) := hc
          cases hb : e.isNotFound
          · rw [hb] at hc'
            rw [if_neg (by simp)] at hc'
            injection hc' with h1 h2
            rw [← h1] at hxc
            simp [machineRemovals] at hxc
          · rw [hb] at hc'
            rw [if_pos rfl] at hc'
            injection hc' with h1 h2
            rw [← h1] at hxc
            simp [machineRemovals] at hxc
        | ok cs =>
          rw [hcs] at hc
          have hc2 : cleanupContainersLoop (cleanupForceDestroyedMachineF env fuel)
              env cs = (tc, rc) := hc
          have hmem := machineRemovals_containersLoop
            (cleanupForceDestroyedMachineF env fuel) env cs x
            (by rw [hc2]; exact hxc)
          rcases hmem with ⟨c, hcmem, hd⟩
          simp only [machineDescendants, hcs]
          rcases hd with rfl | hd
          · exact List.mem_flatMap.2 ⟨x, hcmem, List.mem_cons_self _ _⟩
          · exact List.mem_flatMap.2
              ⟨c, hcmem, List.mem_cons_of_mem _ (ih c x hd)⟩

/-- C9: provided the machine is not among its own transitive containers,
`cleanupForceDestroyedMachine` never removes the machine record of the
machine it was invoked on: removal of that record is left to the
provisioner. -/
theorem force_destroyed_machine_keeps_machine_record (env : Env) (fuel : Nat)
    (machineId : String)
    (hacyc : machineId ∉ machineDescendants env fuel machineId) :
    Effect.removeMachine machineId ∉
      (cleanupForceDestroyedMachineF env fuel machineId).1 := by
  intro hmem
  exact hacyc (machineRemovals_subset_descendants env fuel machineId machineId
    (mem_machineRemovals_of_mem hmem))

theorem force_destroyed_machine_keeps_machine_record_witness :
    Effect.removeMachine "0" ∉ (cleanupForceDestroyedMachineF envC8 2 "0").1 :=
  force_destroyed_machine_keeps_machine_record envC8 2 "0" (by decide)

end JujuCleanup
